import Mathlib

set_option maxHeartbeats 1000000
set_option maxRecDepth 8000

/-!
Verification development for the HackerScript HCS-to-C compiler
(source-code/Fresh-Compiler/main.py).

Modeling conventions:
* A parse tree (`PNode`) is a tagged tree; a token carries its terminal
  name and its lexeme.  The compiler builds its parser with lark's default
  token filtering (`keep_all_tokens` unset), so a rule node's children are
  its sub-trees and the tokens of the named terminals (`ID`, `INT`,
  `STRING`, `MODE`) only: the anonymous literal tokens of the grammar
  (`"func"`, `"["`, `"]"`, `"("`, `")"`, `"="`, `"+"`, `"=="`, `"log"`,
  `"class"`, ...) never appear as children.  `PNode` itself does not
  enforce these shapes; the theorems below instantiate or quantify over
  the child lists the parser actually produces.
* The code generator is a bottom-up transformer: children are replaced by
  their transformed values before a node's own handler runs.  Transformed
  values (`TVal`) mirror the Python values that can occur in a transformed
  child list: tokens as well as plain strings (both satisfy
  `isinstance(c, str)` in Python, since lark tokens subclass `str`),
  `(code, type)` tuples for expressions, lists of strings (params result),
  lists of tuples (args result), and untransformed sub-trees for the rules
  that have no handler method.
* A Python runtime error (IndexError on a missing child, AttributeError,
  an unbound local, unpacking a non-tuple) is modeled by `Option.none`.
* `pyReprN` and `pyReprT` stand in for Python's `str()` rendering of
  values that are neither plain strings nor tokens (`str()` of a lark
  `Tree`, of a tuple, of a list); an abridged rendering is used, and the
  claims depend only on such a rendering being distinct from the source
  program's own identifiers.
-/

/-- Boolean list prefix test, used for substring search. -/
def isPrefixL : List Char → List Char → Bool
  | [], _ => true
  | _ :: _, [] => false
  | a :: as, b :: bs => a = b && isPrefixL as bs

/-- Boolean substring test on character lists (Python `needle in hay`). -/
def hasSubL (hay needle : List Char) : Bool :=
  match hay with
  | [] => needle.isEmpty
  | _ :: rest => isPrefixL needle hay || hasSubL rest needle

/-- Python `needle in hay` on strings. -/
def containsSub (hay needle : String) : Bool := hasSubL hay.data needle.data

/-- Number of (possibly overlapping) occurrences of `needle` in `hay`. -/
def countSubL (hay needle : List Char) : Nat :=
  match hay with
  | [] => 0
  | _ :: rest => (if isPrefixL needle hay then 1 else 0) + countSubL rest needle

/-- Number of occurrences of a substring. -/
def countSub (hay needle : String) : Nat := countSubL hay.data needle.data

/-- Python `s.startswith(p)`. -/
def strStarts (s p : String) : Bool := isPrefixL p.data s.data

/-- Python `s.endswith(p)`. -/
def strEnds (s p : String) : Bool := isPrefixL p.data.reverse s.data.reverse

/-- Python slice `s[n:]`. -/
def strDropN (s : String) (n : Nat) : String := ⟨s.data.drop n⟩

/-- Python slice `s[:-n]` (for `n ≤ len s`). -/
def strDropRightN (s : String) (n : Nat) : String := ⟨s.data.take (s.data.length - n)⟩

/-- Python `c in s` for a single character. -/
def strHasChar (s : String) (c : Char) : Bool := s.data.contains c

/-- ASCII whitespace test (the characters Python `str.strip` removes in
our inputs). -/
def isWsC (c : Char) : Bool := c = ' ' || c = '\t' || c = '\n' || c = '\r'

/-- Python `s.strip()`. -/
def strTrim (s : String) : String :=
  ⟨((s.data.dropWhile isWsC).reverse.dropWhile isWsC).reverse⟩

/-- Suffix of a character list after the last occurrence of `->`
(Python `s.split('->')[-1]`). -/
def arrowTail (s : List Char) : List Char :=
  if hasSubL s ['-', '>'] then
    match s with
    | '-' :: '>' :: rest => arrowTail rest
    | _ :: rest => arrowTail rest
    | [] => []
  else s
termination_by s.length
decreasing_by
  all_goals simp_all
  all_goals omega

/-- First-match association lookup (Python dict access). -/
def lookupA {α : Type} : List (String × α) → String → Option α
  | [], _ => none
  | (k, v) :: rest, n => if k = n then some v else lookupA rest n

/-- Insertion-order-preserving dict update (Python `d[k] = v`). -/
def upsert : List (String × String) → String → String → List (String × String)
  | [], k, v => [(k, v)]
  | (k0, v0) :: rest, k, v =>
    if k0 = k then (k, v) :: rest else (k0, v0) :: upsert rest k v

/-- Replace the value stored under an existing key of the outer class table. -/
def updateAt : List (String × List (String × String)) → String →
    List (String × String) → List (String × List (String × String))
  | [], _, _ => []
  | (k0, v0) :: rest, k, v =>
    if k0 = k then (k, v) :: rest else (k0, v0) :: updateAt rest k v

/-- Set insertion (Python `set.add`; order is irrelevant, membership is not). -/
def insertNew (l : List String) (n : String) : List String :=
  if n ∈ l then l else l ++ [n]

/-- Parse-tree node: a token (terminal name, lexeme) or a tagged tree. -/
inductive PNode where
  | tok (ty v : String)
  | tree (tag : String) (kids : List PNode)

/-- Stand-in for Python `str()` on a lark node (`str` of a token is its
lexeme; the tree rendering is abridged, it is unreachable from
parser-shaped trees). -/
def pyReprN : PNode → String
  | .tok _ v => v
  | .tree tag _ => "Tree(" ++ tag ++ ")"

/-- The compiler's `get_value` helper: descend into the first child for the
four wrapper tags, else a token's lexeme, else Python `str()`. -/
def get_value : PNode → Option String
  | .tok _ v => some v
  | .tree tag kids =>
    if tag = "int_literal" ∨ tag = "string_literal" ∨ tag = "var_access" ∨ tag = "new_expr" then
      match kids with
      | [] => none
      | k :: _ => get_value k
    else some (pyReprN (.tree tag kids))

/-- Collector state: `Collector.__init__` fields. -/
structure CState where
  current_class : Option String
  class_fields : List (String × List (String × String))
  class_names : List String
deriving Repr, DecidableEq

/-- Fresh collector state. -/
def initCState : CState := ⟨none, [], []⟩

mutual
/-- `Collector.infer_type`: literal-driven type inference over the raw
parse tree. -/
def Collector.infer_type : PNode → Option String
  | .tok _ _ => some "unknown"
  | .tree tag kids =>
    if tag = "string_literal" then some "char*"
    else if tag = "int_literal" then some "int"
    else if tag = "null_literal" then some "void*"
    else if tag = "add" then
      match kids with
      | [] => none
      | c0 :: rest => do
        let t0 ← Collector.infer_type c0
        Collector.addWalk t0 rest
    else if tag = "call" then
      match kids with
      | [] => none
      | f :: _ =>
        match f with
        | .tree "var_access" (f0 :: _) => do
          let name ← get_value f0
          if name = "allocate" then some "void*"
          else if name ∈ ["read_file", "get_current_version", "get_remote_version", "replace", "get_cwd"] then some "char*"
          else if name = "curl_get" then some "Response*"
          else if name = "json_parse" then some "Json*"
          else if name = "list_dir" then some "Array"
          else if name = "parse_hcl" then some "Hcl*"
          else some "unknown"
        | .tree "var_access" [] => none
        | _ => some "unknown"
    else if tag = "new_expr" then
      match kids with
      | _ :: k1 :: _ => do
        let nm ← get_value k1
        some ("struct " ++ nm ++ "*")
      | _ => none
    else if tag = "var_access" then some "unknown"
    else some "unknown"

/-- The `for i in range(1, len(children), 2)` walk of the `add` branch of
`Collector.infer_type`: operands sit at the even indices; a chain with an
even child count indexes one past the end (IndexError). -/
def Collector.addWalk (acc : String) : List PNode → Option String
  | [] => some acc
  | [_] => none
  | _ :: e :: rest => do
    let rt ← Collector.infer_type e
    Collector.addWalk (if acc = "char*" ∨ rt = "char*" then "char*" else "int") rest
end

/-- `Collector.assignment`: record `self.<field> = <expr>` into the class
table of the current class. -/
def Collector.assignment (st : CState) (kids : List PNode) : Option CState :=
  match kids with
  | l :: _e :: r :: _ =>
    match l with
    | .tree "dot_access" lk =>
      match lk with
      | ll :: _d :: fld :: _ =>
        match ll with
        | .tree "var_access" (x :: _) => do
          let xv ← get_value x
          match st.current_class with
          | some cc =>
            if xv = "self" ∧ cc ≠ "" then do
              let fn ← get_value fld
              let ft ← Collector.infer_type r
              let m ← lookupA st.class_fields cc
              some { st with class_fields := updateAt st.class_fields cc (upsert m fn ft) }
            else some st
          | none => some st
        | _ => some st
      | _ => some st
    | _ => some st
  | _ => some st

mutual
/-- `lark.visitors.Interpreter` dispatch for the collector: `class_def` and
`assignment` have methods, everything else falls through to
`visit_children`. -/
def Collector.visit (st : CState) : PNode → Option CState
  | .tok _ _ => some st
  | .tree tag kids =>
    if tag = "class_def" then
      match kids.get? 1 with
      | none => none
      | some n1 => do
        let name ← get_value n1
        let st1 : CState :=
          { current_class := some name
            class_fields :=
              if (lookupA st.class_fields name).isSome then st.class_fields
              else st.class_fields ++ [(name, [])]
            class_names := insertNew st.class_names name }
        let st2 ← Collector.visitChildren st1 kids
        some { st2 with current_class := none }
    else if tag = "assignment" then Collector.assignment st kids
    else Collector.visitChildren st kids

/-- `visit_children`: visit tree children in order, skip tokens. -/
def Collector.visitChildren (st : CState) : List PNode → Option CState
  | [] => some st
  | k :: ks => do
    let st1 ← match k with
      | .tree _ _ => Collector.visit st k
      | .tok _ _ => some st
    Collector.visitChildren st1 ks
end

/-- Inner loop of `process_interpolation`: consume characters up to the
matching `}` (the `}` itself is skipped; an unterminated `{` consumes the
rest of the literal). -/
def interpVar : List Char → String × List Char
  | [] => ("", [])
  | c :: rest =>
    if c = '\x7d' then ("", rest)
    else
      let (v, r) := interpVar rest
      (String.singleton c ++ v, r)

/-- Length bound needed for termination of the outer interpolation loop. -/
theorem interpVar_length (l : List Char) : (interpVar l).2.length ≤ l.length := by
  induction l with
  | nil => simp [interpVar]
  | cons c rest ih =>
    simp only [interpVar]
    split
    · simp
    · simpa using Nat.le_succ_of_le ih

/-- Outer character scan of `process_interpolation`, accumulating literal
parts, `%s` markers and the captured interpolation texts. -/
def interpLoop : List Char → List String → List String → String → List String × List String
  | [], parts, vars, current =>
    ((if current ≠ "" then parts ++ [current] else parts), vars)
  | c :: rest, parts, vars, current =>
    if c = '\x7b' then
      let parts1 := if current ≠ "" then parts ++ [current] else parts
      interpLoop (interpVar rest).2 (parts1 ++ ["%s"]) (vars ++ [strTrim (interpVar rest).1]) ""
    else interpLoop rest parts vars (current.push c)
termination_by l _ _ _ => l.length
decreasing_by
  · exact Nat.lt_succ_of_le (interpVar_length rest)
  · simp

/-- Python slice `s[1:-1]` removing the quotes of a string token. -/
def stripQuotes (s0 : String) : String :=
  ⟨(s0.data.drop 1).take (s0.data.length - 2)⟩

/-- `CTransformer.process_interpolation`: strip the surrounding quotes; a
literal with no `{` is re-quoted verbatim, otherwise it is lowered to an
`asprintf` statement expression. -/
def process_interpolation (s0 : String) : String :=
  let s : String := stripQuotes s0
  if ¬ strHasChar s '\x7b' then "\"" ++ s ++ "\""
  else
    let (parts, vars) := interpLoop s.data [] [] ""
    "(char*)(\x7b char *str = NULL; asprintf(&str, \"" ++ String.join parts ++
      "\", " ++ String.intercalate ", " vars ++ "); str; \x7d)"

/-- A transformed child value (a Python value in a transformed child list). -/
inductive TVal where
  | tok (ty v : String)
  | str (s : String)
  | pair (code ty : String)
  | strs (l : List String)
  | pairs (l : List (String × String))
  | tree (tag : String) (kids : List TVal)

/-- One lexical scope frame: name to inferred type, insertion ordered. -/
abbrev Frame := List (String × String)

/-- Transformer state: the mutable fields of `CTransformer.__init__`
(`current_ret_type` is initialized but never read, so it is omitted). -/
structure TState where
  mode : String
  scopes : List Frame
  current_class : Option String
  class_fields : List (String × List (String × String))
  class_names : List String
  has_main : Bool
deriving Repr, DecidableEq

/-- Fresh transformer state over the collector's two tables. -/
def initTState (cf : List (String × List (String × String)))
    (cn : List String) : TState :=
  ⟨"automatic", [[]], none, cf, cn, false⟩

/-- Stand-in for Python `str()` on a transformed value (tokens and plain
strings render as themselves; other renderings are abridged and unreachable
from parser-shaped trees). -/
def pyReprT : TVal → String
  | .tok _ v => v
  | .str s => s
  | .pair c t => "(" ++ c ++ ", " ++ t ++ ")"
  | .strs _ => "[...]"
  | .pairs _ => "[...]"
  | .tree tag _ => "Tree(" ++ tag ++ ")"

/-- `get_value` applied to a transformed child (same dispatch, over `TVal`). -/
def get_valueT : TVal → Option String
  | .tok _ v => some v
  | .tree tag kids =>
    if tag = "int_literal" ∨ tag = "string_literal" ∨ tag = "var_access" ∨ tag = "new_expr" then
      match kids with
      | [] => none
      | k :: _ => get_valueT k
    else some (pyReprT (.tree tag kids))
  | v => some (pyReprT v)

/-- Python tuple unpacking `a, b = c` of a transformed child.  In every
state reachable from a parser-shaped tree the unpacked child is a
`(code, type)` tuple; other cases are modeled as failure. -/
def unpack2 : TVal → Option (String × String)
  | .pair c t => some (c, t)
  | _ => none

/-- Python `.value` attribute access on a transformed child (tokens only;
anything else raises AttributeError). -/
def tokValue : TVal → Option String
  | .tok _ v => some v
  | _ => none

/-- The `op_node.value if hasattr(op_node, 'value') else
op_node.children[0].value` read of a comparison operator. -/
def opValue : TVal → Option String
  | .tok _ v => some v
  | .tree _ kids =>
    match kids with
    | .tok _ v :: _ => some v
    | _ => none
  | _ => none

/-- `isinstance(c, str)` filter used by the emitter's string joins (lark
tokens subclass `str`, so both tokens and plain strings pass). -/
def strOfTVal : TVal → Option String
  | .tok _ v => some v
  | .str s => some s
  | _ => none

/-- Join of all `str` instances of a transformed child list. -/
def joinStrs (l : List TVal) : String := String.join (l.filterMap strOfTVal)

/-- Python `', '.join(a[0] for a in args)` where `args` may be a list of
tuples or (for a no-argument call, where `children[2]` is the `)` token) a
string, which Python iterates character by character. -/
def argsJoin : TVal → Option String
  | .pairs l => some (String.intercalate ", " (l.map Prod.fst))
  | .tok _ s => some (String.intercalate ", " (s.data.map String.singleton))
  | .str s => some (String.intercalate ", " (s.data.map String.singleton))
  | _ => none

/-- Python `[a[0] for a in args]` under the same iteration semantics. -/
def codesOf : TVal → Option (List String)
  | .pairs l => some (l.map Prod.fst)
  | .tok _ s => some (s.data.map String.singleton)
  | .str s => some (s.data.map String.singleton)
  | _ => none

/-- `CTransformer.get_type`: walk the scope stack innermost (last frame)
outwards. -/
def lookupRev : List Frame → String → Option String
  | [], _ => none
  | f :: rest, n =>
    match lookupRev rest n with
    | some v => some v
    | none => lookupA f n

/-- `CTransformer.get_type` on a state. -/
def CTransformer.get_type (st : TState) (name : String) : Option String :=
  lookupRev st.scopes name

/-- Bind a name in the innermost (last) frame (`self.scopes[-1][k] = v`);
fails on an empty stack (IndexError). -/
def bindLast : List Frame → String → String → Option (List Frame)
  | [], _, _ => none
  | [f], k, v => some [upsert f k v]
  | f :: g :: rest, k, v => (bindLast (g :: rest) k v).map (f :: ·)

/-- Fixed C prelude prepended by `CTransformer.program`. -/
def baseHeader : String :=
  "#define _GNU_SOURCE\n#include <stdio.h>\n#include <stdlib.h>\n#include <string.h>\n#include <stdbool.h>\n#include <unistd.h>\n#include <curl/curl.h>\n" ++
  "typedef struct \x7b char** data; int len; \x7d Array;\n" ++
  "bool array_contains(Array a, char* s) \x7b for(int i=0; i<a.len; i++) if(strcmp(a.data[i], s)==0) return true; return false; \x7d\n" ++
  "Array array_slice(Array a, int start) \x7b return (Array)\x7ba.data + start, a.len - start\x7d; \x7d\n" ++
  "char* array_last(Array a) \x7b return a.data[a.len-1]; \x7d\n" ++
  "typedef struct \x7b int status; char* body; \x7d Response;\n" ++
  "typedef struct \x7b Array items; \x7d Json;\n" ++
  "typedef struct \x7b struct \x7b Array c; Array virus; \x7d dependencies; \x7d Hcl;\n"

/-- The `defer` macro appended to the header in `manual` mode. -/
def deferMacro : String := "#define defer(stmt) for (int _i = 1; _i--; (stmt)) "

/-- The argv-adapting wrapper appended when a `main` function was emitted. -/
def wrapperText : String :=
  "\nint main(int argc, char** argv) \x7b Array args = \x7bargv + 1, argc - 1\x7d; return hs_main(args); \x7d\n"

/-- `CTransformer.directive`: record the mode, emit nothing. -/
def CTransformer.directive (tvs : List TVal) (st : TState) : Option (TVal × TState) :=
  if tvs.length > 1 then do
    let v ← tokValue (tvs.getD 1 (.str ""))
    some (.str "", { st with mode := v })
  else some (.str "", st)

/-- Include-line text for an import of the given category. -/
def importLine (category incl : String) : String :=
  if category = "c" then "#include <" ++ incl ++ ".h>\n"
  else if category = "virus" then "#include \"" ++ incl ++ ".h\"\n"
  else ""

/-- `CTransformer.import_stmt`. -/
def CTransformer.import_stmt (tvs : List TVal) (st : TState) : Option (TVal × TState) :=
  if tvs.length < 4 then some (.str "", st)
  else do
    let category ← tokValue (tvs.getD 2 (.str ""))
    match tvs.getD 3 (.str "") with
    | .tree itag ik =>
      if itag = "colon_inner" then
        if ik.length < 2 then some (.str "", st)
        else do
          let lib ← tokValue (ik.getD 1 (.str ""))
          some (.str (importLine category lib), st)
      else if itag = "nested_inner" then
        if ik.length < 4 then some (.str "", st)
        else do
          let m ← tokValue (ik.getD 1 (.str ""))
          let p ← tokValue (ik.getD 3 (.str ""))
          some (.str (importLine category (m ++ "/" ++ p)), st)
      else some (.str "", st)
    | _ => none

/-- Body of `CTransformer.params`: keep the lexemes of the `ID` tokens
(a non-token child raises AttributeError on `.type`). -/
def CTransformer.params_list : List TVal → Option (List String)
  | [] => some []
  | .tok ty v :: rest => do
    let r ← CTransformer.params_list rest
    some (if ty = "ID" then v :: r else r)
  | _ => none

/-- `CTransformer.params` as a rule handler. -/
def CTransformer.params (tvs : List TVal) (st : TState) : Option (TVal × TState) := do
  let l ← CTransformer.params_list tvs
  some (.strs l, st)

/-- `CTransformer.args`: keep the tuple children. -/
def CTransformer.args (tvs : List TVal) (st : TState) : Option (TVal × TState) :=
  some (.pairs (tvs.filterMap unpack2), st)

/-- `CTransformer.var_access`. -/
def CTransformer.var_access (tvs : List TVal) (st : TState) : Option (TVal × TState) :=
  match tvs with
  | [] => some (.pair "" "unknown", st)
  | c :: _ => do
    let name ← get_valueT c
    some (.pair name ((CTransformer.get_type st name).getD "unknown"), st)

/-- `CTransformer.dot_access`. -/
def CTransformer.dot_access (tvs : List TVal) (st : TState) : Option (TVal × TState) :=
  match tvs with
  | l :: _d :: r :: _ => do
    let lp ← unpack2 l
    let rv ← get_valueT r
    if strStarts lp.2 "struct " ∧ strEnds lp.2 "*" then
      let cn := strDropRightN (strDropN lp.2 7) 1
      some (.pair (lp.1 ++ "->" ++ rv)
        ((lookupA ((lookupA st.class_fields cn).getD []) rv).getD "char*"), st)
    else if lp.2 = "Array" then
      if rv = "length" then some (.pair (lp.1 ++ ".len") "int", st)
      else some (.pair (lp.1 ++ "." ++ rv) "unknown", st)
    else if lp.2 = "Response*" then
      some (.pair (lp.1 ++ "->" ++ rv) (if rv = "status" then "int" else "char*"), st)
    else some (.pair (lp.1 ++ "->" ++ rv) "unknown", st)
  | _ => some (.pair "" "unknown", st)

/-- `CTransformer.infer_call_type`: the emitter's free-call signature table. -/
def CTransformer.infer_call_type (name : String) : String :=
  if name ∈ ["build", "run", "install", "remove", "version_compare"] then "int"
  else if name ∈ ["get_current_version", "get_remote_version", "replace", "get_cwd", "read_file", "write_file", "read_input"] then "char*"
  else if name = "curl_get" then "Response*"
  else if name = "json_parse" then "Json*"
  else if name = "parse_hcl" then "Hcl*"
  else if name = "list_dir" then "Array"
  else if name = "file_exists" then "bool"
  else "unknown"

/-- `CTransformer.call`. -/
def CTransformer.call (tvs : List TVal) (st : TState) : Option (TVal × TState) :=
  match tvs with
  | [] => some (.pair "" "unknown", st)
  | func :: _ => do
    let argsV := if tvs.length > 2 then tvs.getD 2 (.str "") else .pairs []
    let args_c0 ← argsJoin argsV
    let fp ← unpack2 func
    if fp.2 = "unknown" then
      if fp.1 = "allocate" then some (.pair ("malloc(" ++ args_c0 ++ ")") "void*", st)
      else if fp.1 = "deallocate" then some (.pair ("free(" ++ args_c0 ++ ")") "void", st)
      else if fp.1 = "version_compare" then some (.pair ("strcmp(" ++ args_c0 ++ ")") "int", st)
      else some (.pair (fp.1 ++ "(" ++ args_c0 ++ ")") (CTransformer.infer_call_type fp.1), st)
    else
      let method := if containsSub fp.1 "->" then (⟨arrowTail fp.1.data⟩ : String) else fp.1
      let base := if strEnds fp.2 "*" then strDropRightN fp.2 1 else fp.2
      let full_name := if strDropRightN fp.2 1 ∈ st.class_names then base ++ "_" ++ method else method
      let args_c := fp.1 ++ (if args_c0 ≠ "" then ", " ++ args_c0 else "")
      some (.pair (full_name ++ "(" ++ args_c ++ ")") (CTransformer.infer_call_type method), st)

/-- `CTransformer.func_call`: return the (already transformed) callee child. -/
def CTransformer.func_call (tvs : List TVal) (st : TState) : Option (TVal × TState) :=
  match tvs with
  | [] => none
  | v :: _ => some (v, st)

/-- `CTransformer.new_expr`. -/
def CTransformer.new_expr (tvs : List TVal) (st : TState) : Option (TVal × TState) :=
  if tvs.length < 2 then some (.pair "" "unknown", st)
  else do
    let name ← get_valueT (tvs.getD 1 (.str ""))
    some (.pair ("(struct " ++ name ++ "*)malloc(sizeof(struct " ++ name ++ "))")
      ("struct " ++ name ++ "*"), st)

/-- `CTransformer.string_literal`. -/
def CTransformer.string_literal (tvs : List TVal) (st : TState) : Option (TVal × TState) :=
  match tvs with
  | [] => some (.pair "" "char*", st)
  | c :: _ => do
    let v ← tokValue c
    some (.pair (process_interpolation v) "char*", st)

/-- `CTransformer.int_literal`. -/
def CTransformer.int_literal (tvs : List TVal) (st : TState) : Option (TVal × TState) :=
  match tvs with
  | [] => some (.pair "" "int", st)
  | c :: _ => do
    let v ← tokValue c
    some (.pair v "int", st)

/-- `CTransformer.null_literal`. -/
def CTransformer.null_literal (_tvs : List TVal) (st : TState) : Option (TVal × TState) :=
  some (.pair "NULL" "void*", st)

/-- `CTransformer.array_literal`. -/
def CTransformer.array_literal (tvs : List TVal) (st : TState) : Option (TVal × TState) := do
  let argsV := if tvs.length = 3 then tvs.getD 1 (.str "") else .pairs []
  let codes ← codesOf argsV
  some (.pair ("(Array)\x7b.data = (char**)(char*[])\x7b " ++ String.intercalate ", " codes ++
    " \x7d, .len = " ++ toString codes.length ++ " \x7d") "Array", st)

/-- `CTransformer.paren_expr`: return `children[1]` (IndexError when absent:
the one handler with no shape guard). -/
def CTransformer.paren_expr (tvs : List TVal) (st : TState) : Option (TVal × TState) :=
  match tvs with
  | _ :: v :: _ => some (v, st)
  | _ => none

/-- Pairwise walk of `CTransformer.add` (operator children are skipped
unread; the walk stops when fewer than two children remain). -/
def CTransformer.addFold : TVal → List TVal → Option TVal
  | left, _op :: r :: rest => do
    let lp ← unpack2 left
    let rp ← unpack2 r
    CTransformer.addFold
      (if lp.2 = "char*" ∨ rp.2 = "char*" then
        TVal.pair ("(char*)(\x7b char *res = NULL; asprintf(&res, \"%s%s\", " ++ lp.1 ++ ", " ++ rp.1 ++ "); res; \x7d)") "char*"
      else TVal.pair ("(" ++ lp.1 ++ " + " ++ rp.1 ++ ")") "int") rest
  | left, _ => some left

/-- `CTransformer.add`. -/
def CTransformer.add (tvs : List TVal) (st : TState) : Option (TVal × TState) :=
  match tvs with
  | [x] => some (x, st)
  | [] => none
  | l :: rest => (CTransformer.addFold l rest).map (·, st)

/-- Pairwise walk of `CTransformer.compare` (an operator other than the
three known ones leaves `code` unbound: NameError). -/
def CTransformer.cmpFold : TVal → List TVal → Option TVal
  | left, opn :: r :: rest => do
    let op ← opValue opn
    let lp ← unpack2 left
    let rp ← unpack2 r
    let code ←
      if op = "==" then
        some (if lp.2 = "char*" ∧ rp.2 = "char*" then
            "(strcmp(" ++ lp.1 ++ ", " ++ rp.1 ++ ") == 0)"
          else "(" ++ lp.1 ++ " == " ++ rp.1 ++ ")")
      else if op = "<" then some ("(" ++ lp.1 ++ " < " ++ rp.1 ++ ")")
      else if op = ">" then some ("(" ++ lp.1 ++ " > " ++ rp.1 ++ ")")
      else none
    CTransformer.cmpFold (.pair code "bool") rest
  | left, _ => some left

/-- `CTransformer.compare`. -/
def CTransformer.compare (tvs : List TVal) (st : TState) : Option (TVal × TState) :=
  match tvs with
  | [x] => some (x, st)
  | [] => none
  | l :: rest => (CTransformer.cmpFold l rest).map (·, st)

/-- Pairwise walk of `CTransformer.logic`. -/
def CTransformer.logicFold : TVal → List TVal → Option TVal
  | left, _op :: r :: rest => do
    let lp ← unpack2 left
    let rp ← unpack2 r
    CTransformer.logicFold (.pair ("(" ++ lp.1 ++ " && " ++ rp.1 ++ ")") "bool") rest
  | left, _ => some left

/-- `CTransformer.logic`. -/
def CTransformer.logic (tvs : List TVal) (st : TState) : Option (TVal × TState) :=
  match tvs with
  | [x] => some (x, st)
  | [] => none
  | l :: rest => (CTransformer.logicFold l rest).map (·, st)

/-- `CTransformer.not_expr`. -/
def CTransformer.not_expr (tvs : List TVal) (st : TState) : Option (TVal × TState) :=
  if tvs.length < 2 then some (.pair "" "bool", st)
  else do
    let p ← unpack2 (tvs.getD 1 (.str ""))
    some (.pair ("!(" ++ p.1 ++ ")") "bool", st)

/-- `CTransformer.array_access`. -/
def CTransformer.array_access (tvs : List TVal) (st : TState) : Option (TVal × TState) :=
  match tvs with
  | l :: _b :: i :: _ => do
    let lp ← unpack2 l
    let ip ← unpack2 i
    if lp.2 = "Array" then some (.pair (lp.1 ++ ".data[" ++ ip.1 ++ "]") "char*", st)
    else if lp.2 = "Json*" then some (.pair (lp.1 ++ "->items.data[" ++ ip.1 ++ "]") "char*", st)
    else some (.pair (lp.1 ++ "[" ++ ip.1 ++ "]") "unknown", st)
  | _ => some (.pair "" "unknown", st)

/-- `CTransformer.assignment`: emit `lhs = rhs;` and bind a fresh bare
identifier in the innermost frame. -/
def CTransformer.assignment (tvs : List TVal) (st : TState) : Option (TVal × TState) :=
  match tvs with
  | l :: _e :: r :: _ => do
    let lp ← unpack2 l
    let rp ← unpack2 r
    if (CTransformer.get_type st lp.1).isNone ∧ ¬ strHasChar lp.1 ' ' ∧
        ¬ containsSub lp.1 "->" ∧ ¬ strHasChar lp.1 '.' ∧ ¬ strStarts lp.1 "(" then
      match bindLast st.scopes lp.1 (if rp.2 ≠ "unknown" then rp.2 else "char*") with
      | none => none
      | some sc => some (.str (lp.1 ++ " = " ++ rp.1 ++ ";\n"), { st with scopes := sc })
    else some (.str (lp.1 ++ " = " ++ rp.1 ++ ";\n"), st)
  | _ => some (.str "", st)

/-- `CTransformer.log_stmt`. -/
def CTransformer.log_stmt (tvs : List TVal) (st : TState) : Option (TVal × TState) :=
  if tvs.length < 2 then some (.str "", st)
  else do
    let v ← tokValue (tvs.getD 1 (.str ""))
    some (.str ("printf(\"%s\\n\", " ++ process_interpolation v ++ ");\n"), st)

/-- `CTransformer.return_stmt`. -/
def CTransformer.return_stmt (tvs : List TVal) (st : TState) : Option (TVal × TState) :=
  if tvs.length < 1 then some (.str "", st)
  else if tvs.length = 1 then some (.str "return;\n", st)
  else do
    let p ← unpack2 (tvs.getD 1 (.str ""))
    some (.str ("return " ++ p.1 ++ ";\n"), st)

/-- `CTransformer.func_call_stmt`. -/
def CTransformer.func_call_stmt (tvs : List TVal) (st : TState) : Option (TVal × TState) :=
  match tvs with
  | [] => some (.str "", st)
  | c :: _ => do
    let p ← unpack2 c
    some (.str (p.1 ++ ";\n"), st)

/-- `CTransformer.else_if_part`. -/
def CTransformer.else_if_part (tvs : List TVal) (st : TState) : Option (TVal × TState) :=
  if tvs.length < 5 then some (.str "", st)
  else do
    let p ← unpack2 (tvs.getD 2 (.str ""))
    some (.str (" else if (" ++ p.1 ++ ") \x7b " ++ joinStrs (tvs.drop 4) ++ " \x7d"), st)

/-- `CTransformer.else_block_part`. -/
def CTransformer.else_block_part (tvs : List TVal) (st : TState) : Option (TVal × TState) :=
  if tvs.length < 3 then some (.str "", st)
  else some (.str (" else \x7b " ++ joinStrs (tvs.drop 2) ++ " \x7d"), st)

/-- Position of the first `]` token at index 3 or later (the then-block
terminator search of `CTransformer.if_stmt`). -/
def blockEndFrom (l : List TVal) (start : Nat) : Nat :=
  match (l.drop start).findIdx? (fun c => match c with | .tok _ v => v = "]" | _ => false) with
  | some i => start + i
  | none => l.length

/-- `CTransformer.if_stmt`. -/
def CTransformer.if_stmt (tvs : List TVal) (st : TState) : Option (TVal × TState) :=
  if tvs.length < 4 then some (.str "", st)
  else
    let cond_c := match tvs.getD 1 (.str "") with | .pair c _ => c | v => pyReprT v
    let be := blockEndFrom tvs 3
    let block := joinStrs ((tvs.take be).drop 3)
    let elseParts := joinStrs (tvs.drop (be + 1))
    some (.str ("if (" ++ cond_c ++ ") \x7b " ++ block ++ " \x7d" ++ elseParts ++ "\n"), st)

/-- `CTransformer.for_stmt` (the loop variable is not entered into any
scope frame by the source). -/
def CTransformer.for_stmt (tvs : List TVal) (st : TState) : Option (TVal × TState) :=
  if tvs.length < 6 then some (.str "", st)
  else do
    let var ← get_valueT (tvs.getD 1 (.str ""))
    let cc := match tvs.getD 3 (.str "") with | .pair c _ => c | v => pyReprT v
    let block := joinStrs (tvs.drop 5)
    some (.str ("for (int _" ++ var ++ "_i = 0; _" ++ var ++ "_i < " ++ cc ++
      ".len; _" ++ var ++ "_i++) \x7b char* " ++ var ++ " = " ++ cc ++
      ".data[_" ++ var ++ "_i]; " ++ block ++ " \x7d\n"), st)

/-- `CTransformer.func_def`: rename `main`, search for a `params` tree among
the (already transformed) children, join every `str` child as the body,
push a frame that receives only the parameter bindings, pop it, and build
the signature with `get_type` on the already popped stack. -/
def CTransformer.func_def (tvs : List TVal) (st : TState) : Option (TVal × TState) :=
  if tvs.length < 5 then some (.str "", st)
  else do
    let name0 ← get_valueT (tvs.getD 1 (.str ""))
    let hasMain := if name0 = "main" then true else st.has_main
    let name1 := if name0 = "main" then "hs_main" else name0
    let name2 := match st.current_class with
      | some cc => if cc = "" then name1 else cc ++ "_" ++ name1
      | none => name1
    let pIdx := tvs.findIdx? (fun c => match c with | .tree t _ => t = "params" | _ => false)
    let param_list ← match pIdx with
      | some i =>
        match tvs.getD i (.str "") with
        | .tree _ pk => CTransformer.params_list pk
        | _ => some []
      | none => some []
    let block0 := joinStrs tvs
    let frame1 := param_list.foldl (fun fr p => upsert fr p (if p = "args" then "Array" else "char*")) []
    let locals_decl := String.join (frame1.filterMap (fun q =>
      if q.1 ∈ param_list then none
      else some ((if q.2 ≠ "unknown" then q.2 else "char*") ++ " " ++ q.1 ++ ";\n")))
    let block1 := locals_decl ++ block0
    let param_str := String.intercalate ", " (param_list.map (fun p =>
      (match CTransformer.get_type st p with
       | none => "char*"
       | some t => if t = "" then "char*" else t) ++ " " ++ p))
    let ret_type := if name2 ∈ ["hs_main", "build", "run", "install", "remove", "version_compare"] then "int" else "void"
    let self_param := match st.current_class with
      | some cc => if cc = "" then "" else "struct " ++ cc ++ "* self, "
      | none => ""
    some (.str (ret_type ++ " " ++ name2 ++ "(" ++ self_param ++ param_str ++ ") \x7b " ++
      block1 ++ " \x7d\n"), { st with has_main := hasMain })

/-- `CTransformer.class_def` (`current_class` is set and restored after the
children were already transformed, so the state is unchanged). -/
def CTransformer.class_def (tvs : List TVal) (st : TState) : Option (TVal × TState) :=
  if tvs.length < 4 then some (.str "", st)
  else do
    let name ← get_valueT (tvs.getD 1 (.str ""))
    let funcs_c := joinStrs (tvs.drop 3)
    let fieldList := (lookupA st.class_fields name).getD []
    let field_str0 := String.join (fieldList.map (fun q => q.2 ++ " " ++ q.1 ++ ";\n"))
    let field_str := if field_str0 = "" then "char dummy; // to avoid empty struct\n" else field_str0
    some (.str ("struct " ++ name ++ " \x7b " ++ field_str ++ " \x7d;\n" ++ funcs_c), st)

/-- `CTransformer.program`: fixed prelude, then the import-derived lines,
then all remaining definition strings, then the `main` wrapper. -/
def CTransformer.program (tvs : List TVal) (st : TState) : Option (TVal × TState) :=
  let strs := tvs.filterMap strOfTVal
  let imports := String.join (strs.filter (fun s => strStarts s "#include"))
  let defs0 := String.join (strs.filter (fun s => ¬ strStarts s "#include"))
  let header := baseHeader ++ (if st.mode = "manual" then deferMacro else "")
  let defs := defs0 ++ (if st.has_main then wrapperText else "")
  some (.str (header ++ imports ++ defs), st)

/-- `CTransformer.start`. -/
def CTransformer.start (tvs : List TVal) (st : TState) : Option (TVal × TState) :=
  match tvs with
  | [] => none
  | v :: _ => some (v, st)

/-- Handler dispatch of the lark transformer: a rule with a method is
replaced by the method's result, any other rule is rebuilt as a tree over
its transformed children. -/
def applyH (tag : String) (tvs : List TVal) (st : TState) : Option (TVal × TState) :=
  if tag = "directive" then CTransformer.directive tvs st
  else if tag = "import_stmt" then CTransformer.import_stmt tvs st
  else if tag = "params" then CTransformer.params tvs st
  else if tag = "args" then CTransformer.args tvs st
  else if tag = "var_access" then CTransformer.var_access tvs st
  else if tag = "dot_access" then CTransformer.dot_access tvs st
  else if tag = "call" then CTransformer.call tvs st
  else if tag = "func_call" then CTransformer.func_call tvs st
  else if tag = "new_expr" then CTransformer.new_expr tvs st
  else if tag = "string_literal" then CTransformer.string_literal tvs st
  else if tag = "int_literal" then CTransformer.int_literal tvs st
  else if tag = "null_literal" then CTransformer.null_literal tvs st
  else if tag = "array_literal" then CTransformer.array_literal tvs st
  else if tag = "paren_expr" then CTransformer.paren_expr tvs st
  else if tag = "add" then CTransformer.add tvs st
  else if tag = "compare" then CTransformer.compare tvs st
  else if tag = "logic" then CTransformer.logic tvs st
  else if tag = "not_expr" then CTransformer.not_expr tvs st
  else if tag = "array_access" then CTransformer.array_access tvs st
  else if tag = "assignment" then CTransformer.assignment tvs st
  else if tag = "log_stmt" then CTransformer.log_stmt tvs st
  else if tag = "return_stmt" then CTransformer.return_stmt tvs st
  else if tag = "func_call_stmt" then CTransformer.func_call_stmt tvs st
  else if tag = "else_if_part" then CTransformer.else_if_part tvs st
  else if tag = "else_block_part" then CTransformer.else_block_part tvs st
  else if tag = "if_stmt" then CTransformer.if_stmt tvs st
  else if tag = "for_stmt" then CTransformer.for_stmt tvs st
  else if tag = "func_def" then CTransformer.func_def tvs st
  else if tag = "class_def" then CTransformer.class_def tvs st
  else if tag = "program" then CTransformer.program tvs st
  else if tag = "start" then CTransformer.start tvs st
  else some (.tree tag tvs, st)

mutual
/-- Bottom-up transformation of one node (`lark.Transformer.transform`):
children first, then the node's own handler. -/
def transform (st : TState) : PNode → Option (TVal × TState)
  | .tok ty v => some (.tok ty v, st)
  | .tree tag kids => do
    let r ← transformList st kids
    applyH tag r.1 r.2

/-- Left-to-right transformation of a child list, threading the state. -/
def transformList (st : TState) : List PNode → Option (List TVal × TState)
  | [] => some ([], st)
  | k :: ks => do
    let r1 ← transform st k
    let r2 ← transformList r1.2 ks
    some (r1.1 :: r2.1, r2.2)
end

/-- The compile pipeline after parsing: collector pass, then the code
generator; the result must be a plain string. -/
def compileTree (t : PNode) : Option String := do
  let cs ← Collector.visit initCState t
  let r ← transform (initTState cs.class_fields cs.class_names) t
  match r.1 with
  | .str s => some s
  | _ => none

theorem transform_tok (st : TState) (ty v : String) :
    transform st (.tok ty v) = some (.tok ty v, st) := by simp [transform]

theorem transform_tree (st : TState) (tag : String) (kids : List PNode) :
    transform st (.tree tag kids) =
      (transformList st kids).bind (fun r => applyH tag r.1 r.2) := by
  simp [transform]

theorem transformList_nil (st : TState) : transformList st [] = some ([], st) := by
  simp [transformList]

theorem transformList_cons (st : TState) (k : PNode) (ks : List PNode) :
    transformList st (k :: ks) =
      (transform st k).bind (fun r1 =>
        (transformList r1.2 ks).bind (fun r2 => some (r1.1 :: r2.1, r2.2))) := by
  simp [transformList]

theorem isPrefixL_append_self (l1 l2 : List Char) : isPrefixL l1 (l1 ++ l2) = true := by
  induction l1 with
  | nil => rfl
  | cons c cs ih => simp [isPrefixL, ih]

theorem strStarts_append_left (a b : String) : strStarts (a ++ b) a = true := by
  simpa [strStarts, String.data_append] using isPrefixL_append_self a.data b.data

theorem program_eq (tvs : List TVal) (st : TState) :
    CTransformer.program tvs st = some (.str (
      (baseHeader ++ (if st.mode = "manual" then deferMacro else "")) ++
      String.join ((tvs.filterMap strOfTVal).filter (fun s => strStarts s "#include")) ++
      (String.join ((tvs.filterMap strOfTVal).filter (fun s => ¬ strStarts s "#include")) ++
        (if st.has_main then wrapperText else ""))), st) := rfl

theorem applyH_directive (tvs : List TVal) (st : TState) :
    applyH "directive" tvs st = CTransformer.directive tvs st := by simp [applyH]

theorem applyH_import_stmt (tvs : List TVal) (st : TState) :
    applyH "import_stmt" tvs st = CTransformer.import_stmt tvs st := by simp [applyH]

theorem applyH_params (tvs : List TVal) (st : TState) :
    applyH "params" tvs st = CTransformer.params tvs st := by simp [applyH]

theorem applyH_args (tvs : List TVal) (st : TState) :
    applyH "args" tvs st = CTransformer.args tvs st := by simp [applyH]

theorem applyH_var_access (tvs : List TVal) (st : TState) :
    applyH "var_access" tvs st = CTransformer.var_access tvs st := by simp [applyH]

theorem applyH_dot_access (tvs : List TVal) (st : TState) :
    applyH "dot_access" tvs st = CTransformer.dot_access tvs st := by simp [applyH]

theorem applyH_call (tvs : List TVal) (st : TState) :
    applyH "call" tvs st = CTransformer.call tvs st := by simp [applyH]

theorem applyH_func_call (tvs : List TVal) (st : TState) :
    applyH "func_call" tvs st = CTransformer.func_call tvs st := by simp [applyH]

theorem applyH_new_expr (tvs : List TVal) (st : TState) :
    applyH "new_expr" tvs st = CTransformer.new_expr tvs st := by simp [applyH]

theorem applyH_string_literal (tvs : List TVal) (st : TState) :
    applyH "string_literal" tvs st = CTransformer.string_literal tvs st := by simp [applyH]

theorem applyH_int_literal (tvs : List TVal) (st : TState) :
    applyH "int_literal" tvs st = CTransformer.int_literal tvs st := by simp [applyH]

theorem applyH_null_literal (tvs : List TVal) (st : TState) :
    applyH "null_literal" tvs st = CTransformer.null_literal tvs st := by simp [applyH]

theorem applyH_array_literal (tvs : List TVal) (st : TState) :
    applyH "array_literal" tvs st = CTransformer.array_literal tvs st := by simp [applyH]

theorem applyH_paren_expr (tvs : List TVal) (st : TState) :
    applyH "paren_expr" tvs st = CTransformer.paren_expr tvs st := by simp [applyH]

theorem applyH_add (tvs : List TVal) (st : TState) :
    applyH "add" tvs st = CTransformer.add tvs st := by simp [applyH]

theorem applyH_compare (tvs : List TVal) (st : TState) :
    applyH "compare" tvs st = CTransformer.compare tvs st := by simp [applyH]

theorem applyH_logic (tvs : List TVal) (st : TState) :
    applyH "logic" tvs st = CTransformer.logic tvs st := by simp [applyH]

theorem applyH_not_expr (tvs : List TVal) (st : TState) :
    applyH "not_expr" tvs st = CTransformer.not_expr tvs st := by simp [applyH]

theorem applyH_array_access (tvs : List TVal) (st : TState) :
    applyH "array_access" tvs st = CTransformer.array_access tvs st := by simp [applyH]

theorem applyH_assignment (tvs : List TVal) (st : TState) :
    applyH "assignment" tvs st = CTransformer.assignment tvs st := by simp [applyH]

theorem applyH_log_stmt (tvs : List TVal) (st : TState) :
    applyH "log_stmt" tvs st = CTransformer.log_stmt tvs st := by simp [applyH]

theorem applyH_return_stmt (tvs : List TVal) (st : TState) :
    applyH "return_stmt" tvs st = CTransformer.return_stmt tvs st := by simp [applyH]

theorem applyH_func_call_stmt (tvs : List TVal) (st : TState) :
    applyH "func_call_stmt" tvs st = CTransformer.func_call_stmt tvs st := by simp [applyH]

theorem applyH_else_if_part (tvs : List TVal) (st : TState) :
    applyH "else_if_part" tvs st = CTransformer.else_if_part tvs st := by simp [applyH]

theorem applyH_else_block_part (tvs : List TVal) (st : TState) :
    applyH "else_block_part" tvs st = CTransformer.else_block_part tvs st := by simp [applyH]

theorem applyH_if_stmt (tvs : List TVal) (st : TState) :
    applyH "if_stmt" tvs st = CTransformer.if_stmt tvs st := by simp [applyH]

theorem applyH_for_stmt (tvs : List TVal) (st : TState) :
    applyH "for_stmt" tvs st = CTransformer.for_stmt tvs st := by simp [applyH]

theorem applyH_func_def (tvs : List TVal) (st : TState) :
    applyH "func_def" tvs st = CTransformer.func_def tvs st := by simp [applyH]

theorem applyH_class_def (tvs : List TVal) (st : TState) :
    applyH "class_def" tvs st = CTransformer.class_def tvs st := by simp [applyH]

theorem applyH_program (tvs : List TVal) (st : TState) :
    applyH "program" tvs st = CTransformer.program tvs st := by simp [applyH]

theorem applyH_start (tvs : List TVal) (st : TState) :
    applyH "start" tvs st = CTransformer.start tvs st := by simp [applyH]

theorem applyH_colon_inner (tvs : List TVal) (st : TState) :
    applyH "colon_inner" tvs st = some (.tree "colon_inner" tvs, st) := by simp [applyH]

theorem applyH_nested_inner (tvs : List TVal) (st : TState) :
    applyH "nested_inner" tvs st = some (.tree "nested_inner" tvs, st) := by simp [applyH]

theorem transformList_cons_eval {st st1 st2 : TState} {e : PNode} {v : TVal}
    {ks : List PNode} {vs : List TVal} (h1 : transform st e = some (v, st1))
    (h2 : transformList st1 ks = some (vs, st2)) :
    transformList st (e :: ks) = some (v :: vs, st2) := by
  rw [transformList_cons, h1]
  simp only [Option.bind_eq_bind, Option.some_bind]
  rw [h2]
  rfl

theorem strStarts_append3 (a b c d : String) : strStarts (a ++ b ++ c ++ d) a = true := by
  rw [String.append_assoc, String.append_assoc]
  exact strStarts_append_left a _


theorem directive_scopes (tvs : List TVal) (st : TState) (v : TVal) (st' : TState)
    (h : CTransformer.directive tvs st = some (v, st')) : st'.scopes = st.scopes := by
  unfold CTransformer.directive at h
  repeat' first
    | split at h
    | (simp only [Option.bind_eq_bind, Option.bind_eq_some, Option.map_eq_some',
        Option.some.injEq, Prod.mk.injEq] at h)
    | (obtain ⟨_, _, h⟩ := h)
    | (obtain ⟨_, h⟩ := h)
  all_goals rfl

theorem import_stmt_state (tvs : List TVal) (st : TState) (v : TVal) (st' : TState)
    (h : CTransformer.import_stmt tvs st = some (v, st')) : st' = st := by
  unfold CTransformer.import_stmt at h
  repeat' first
    | split at h
    | (simp only [Option.bind_eq_bind, Option.bind_eq_some, Option.map_eq_some',
        Option.some.injEq, Prod.mk.injEq] at h)
    | (obtain ⟨_, _, h⟩ := h)
    | (obtain ⟨_, h⟩ := h)
  all_goals rfl

theorem params_state (tvs : List TVal) (st : TState) (v : TVal) (st' : TState)
    (h : CTransformer.params tvs st = some (v, st')) : st' = st := by
  unfold CTransformer.params at h
  repeat' first
    | split at h
    | (simp only [Option.bind_eq_bind, Option.bind_eq_some, Option.map_eq_some',
        Option.some.injEq, Prod.mk.injEq] at h)
    | (obtain ⟨_, _, h⟩ := h)
    | (obtain ⟨_, h⟩ := h)
  all_goals rfl

theorem args_state (tvs : List TVal) (st : TState) (v : TVal) (st' : TState)
    (h : CTransformer.args tvs st = some (v, st')) : st' = st := by
  unfold CTransformer.args at h
  simp only [Option.some.injEq, Prod.mk.injEq] at h
  exact h.2.symm

theorem var_access_state (tvs : List TVal) (st : TState) (v : TVal) (st' : TState)
    (h : CTransformer.var_access tvs st = some (v, st')) : st' = st := by
  unfold CTransformer.var_access at h
  repeat' first
    | split at h
    | (simp only [Option.bind_eq_bind, Option.bind_eq_some, Option.map_eq_some',
        Option.some.injEq, Prod.mk.injEq] at h)
    | (obtain ⟨_, _, h⟩ := h)
    | (obtain ⟨_, h⟩ := h)
  all_goals rfl

theorem dot_access_state (tvs : List TVal) (st : TState) (v : TVal) (st' : TState)
    (h : CTransformer.dot_access tvs st = some (v, st')) : st' = st := by
  unfold CTransformer.dot_access at h
  repeat' first
    | split at h
    | (simp only [Option.bind_eq_bind, Option.bind_eq_some, Option.map_eq_some',
        Option.some.injEq, Prod.mk.injEq] at h)
    | (obtain ⟨_, _, h⟩ := h)
    | (obtain ⟨_, h⟩ := h)
  all_goals rfl

theorem call_state (tvs : List TVal) (st : TState) (v : TVal) (st' : TState)
    (h : CTransformer.call tvs st = some (v, st')) : st' = st := by
  unfold CTransformer.call at h
  repeat' first
    | split at h
    | (simp only [Option.bind_eq_bind, Option.bind_eq_some, Option.map_eq_some',
        Option.some.injEq, Prod.mk.injEq] at h)
    | (obtain ⟨_, _, h⟩ := h)
    | (obtain ⟨_, h⟩ := h)
  all_goals rfl

theorem func_call_state (tvs : List TVal) (st : TState) (v : TVal) (st' : TState)
    (h : CTransformer.func_call tvs st = some (v, st')) : st' = st := by
  unfold CTransformer.func_call at h
  repeat' first
    | split at h
    | (simp only [Option.bind_eq_bind, Option.bind_eq_some, Option.map_eq_some',
        Option.some.injEq, Prod.mk.injEq] at h)
    | (obtain ⟨_, _, h⟩ := h)
    | (obtain ⟨_, h⟩ := h)
  all_goals rfl

theorem new_expr_state (tvs : List TVal) (st : TState) (v : TVal) (st' : TState)
    (h : CTransformer.new_expr tvs st = some (v, st')) : st' = st := by
  unfold CTransformer.new_expr at h
  repeat' first
    | split at h
    | (simp only [Option.bind_eq_bind, Option.bind_eq_some, Option.map_eq_some',
        Option.some.injEq, Prod.mk.injEq] at h)
    | (obtain ⟨_, _, h⟩ := h)
    | (obtain ⟨_, h⟩ := h)
  all_goals rfl

theorem string_literal_state (tvs : List TVal) (st : TState) (v : TVal) (st' : TState)
    (h : CTransformer.string_literal tvs st = some (v, st')) : st' = st := by
  unfold CTransformer.string_literal at h
  repeat' first
    | split at h
    | (simp only [Option.bind_eq_bind, Option.bind_eq_some, Option.map_eq_some',
        Option.some.injEq, Prod.mk.injEq] at h)
    | (obtain ⟨_, _, h⟩ := h)
    | (obtain ⟨_, h⟩ := h)
  all_goals rfl

theorem int_literal_state (tvs : List TVal) (st : TState) (v : TVal) (st' : TState)
    (h : CTransformer.int_literal tvs st = some (v, st')) : st' = st := by
  unfold CTransformer.int_literal at h
  repeat' first
    | split at h
    | (simp only [Option.bind_eq_bind, Option.bind_eq_some, Option.map_eq_some',
        Option.some.injEq, Prod.mk.injEq] at h)
    | (obtain ⟨_, _, h⟩ := h)
    | (obtain ⟨_, h⟩ := h)
  all_goals rfl

theorem null_literal_state (tvs : List TVal) (st : TState) (v : TVal) (st' : TState)
    (h : CTransformer.null_literal tvs st = some (v, st')) : st' = st := by
  unfold CTransformer.null_literal at h
  simp only [Option.some.injEq, Prod.mk.injEq] at h
  exact h.2.symm

theorem array_literal_state (tvs : List TVal) (st : TState) (v : TVal) (st' : TState)
    (h : CTransformer.array_literal tvs st = some (v, st')) : st' = st := by
  unfold CTransformer.array_literal at h
  repeat' first
    | split at h
    | (simp only [Option.bind_eq_bind, Option.bind_eq_some, Option.map_eq_some',
        Option.some.injEq, Prod.mk.injEq] at h)
    | (obtain ⟨_, _, h⟩ := h)
    | (obtain ⟨_, h⟩ := h)
  all_goals rfl

theorem paren_expr_state (tvs : List TVal) (st : TState) (v : TVal) (st' : TState)
    (h : CTransformer.paren_expr tvs st = some (v, st')) : st' = st := by
  unfold CTransformer.paren_expr at h
  repeat' first
    | split at h
    | (simp only [Option.some.injEq, Prod.mk.injEq] at h)
    | (obtain ⟨_, h⟩ := h)
  all_goals rfl

theorem add_state (tvs : List TVal) (st : TState) (v : TVal) (st' : TState)
    (h : CTransformer.add tvs st = some (v, st')) : st' = st := by
  unfold CTransformer.add at h
  repeat' first
    | split at h
    | (simp only [Option.bind_eq_bind, Option.bind_eq_some, Option.map_eq_some',
        Option.some.injEq, Prod.mk.injEq] at h)
    | (obtain ⟨_, _, h⟩ := h)
    | (obtain ⟨_, h⟩ := h)
  all_goals rfl

theorem compare_state (tvs : List TVal) (st : TState) (v : TVal) (st' : TState)
    (h : CTransformer.compare tvs st = some (v, st')) : st' = st := by
  unfold CTransformer.compare at h
  repeat' first
    | split at h
    | (simp only [Option.bind_eq_bind, Option.bind_eq_some, Option.map_eq_some',
        Option.some.injEq, Prod.mk.injEq] at h)
    | (obtain ⟨_, _, h⟩ := h)
    | (obtain ⟨_, h⟩ := h)
  all_goals rfl

theorem logic_state (tvs : List TVal) (st : TState) (v : TVal) (st' : TState)
    (h : CTransformer.logic tvs st = some (v, st')) : st' = st := by
  unfold CTransformer.logic at h
  repeat' first
    | split at h
    | (simp only [Option.bind_eq_bind, Option.bind_eq_some, Option.map_eq_some',
        Option.some.injEq, Prod.mk.injEq] at h)
    | (obtain ⟨_, _, h⟩ := h)
    | (obtain ⟨_, h⟩ := h)
  all_goals rfl

theorem not_expr_state (tvs : List TVal) (st : TState) (v : TVal) (st' : TState)
    (h : CTransformer.not_expr tvs st = some (v, st')) : st' = st := by
  unfold CTransformer.not_expr at h
  repeat' first
    | split at h
    | (simp only [Option.bind_eq_bind, Option.bind_eq_some, Option.map_eq_some',
        Option.some.injEq, Prod.mk.injEq] at h)
    | (obtain ⟨_, _, h⟩ := h)
    | (obtain ⟨_, h⟩ := h)
  all_goals rfl

theorem array_access_state (tvs : List TVal) (st : TState) (v : TVal) (st' : TState)
    (h : CTransformer.array_access tvs st = some (v, st')) : st' = st := by
  unfold CTransformer.array_access at h
  repeat' first
    | split at h
    | (simp only [Option.bind_eq_bind, Option.bind_eq_some, Option.map_eq_some',
        Option.some.injEq, Prod.mk.injEq] at h)
    | (obtain ⟨_, _, h⟩ := h)
    | (obtain ⟨_, h⟩ := h)
  all_goals rfl

theorem log_stmt_state (tvs : List TVal) (st : TState) (v : TVal) (st' : TState)
    (h : CTransformer.log_stmt tvs st = some (v, st')) : st' = st := by
  unfold CTransformer.log_stmt at h
  repeat' first
    | split at h
    | (simp only [Option.bind_eq_bind, Option.bind_eq_some, Option.map_eq_some',
        Option.some.injEq, Prod.mk.injEq] at h)
    | (obtain ⟨_, _, h⟩ := h)
    | (obtain ⟨_, h⟩ := h)
  all_goals rfl

theorem return_stmt_state (tvs : List TVal) (st : TState) (v : TVal) (st' : TState)
    (h : CTransformer.return_stmt tvs st = some (v, st')) : st' = st := by
  unfold CTransformer.return_stmt at h
  repeat' first
    | split at h
    | (simp only [Option.bind_eq_bind, Option.bind_eq_some, Option.map_eq_some',
        Option.some.injEq, Prod.mk.injEq] at h)
    | (obtain ⟨_, _, h⟩ := h)
    | (obtain ⟨_, h⟩ := h)
  all_goals rfl

theorem func_call_stmt_state (tvs : List TVal) (st : TState) (v : TVal) (st' : TState)
    (h : CTransformer.func_call_stmt tvs st = some (v, st')) : st' = st := by
  unfold CTransformer.func_call_stmt at h
  repeat' first
    | split at h
    | (simp only [Option.bind_eq_bind, Option.bind_eq_some, Option.map_eq_some',
        Option.some.injEq, Prod.mk.injEq] at h)
    | (obtain ⟨_, _, h⟩ := h)
    | (obtain ⟨_, h⟩ := h)
  all_goals rfl

theorem else_if_part_state (tvs : List TVal) (st : TState) (v : TVal) (st' : TState)
    (h : CTransformer.else_if_part tvs st = some (v, st')) : st' = st := by
  unfold CTransformer.else_if_part at h
  repeat' first
    | split at h
    | (simp only [Option.bind_eq_bind, Option.bind_eq_some, Option.map_eq_some',
        Option.some.injEq, Prod.mk.injEq] at h)
    | (obtain ⟨_, _, h⟩ := h)
    | (obtain ⟨_, h⟩ := h)
  all_goals rfl

theorem else_block_part_state (tvs : List TVal) (st : TState) (v : TVal) (st' : TState)
    (h : CTransformer.else_block_part tvs st = some (v, st')) : st' = st := by
  unfold CTransformer.else_block_part at h
  repeat' first
    | split at h
    | (simp only [Option.some.injEq, Prod.mk.injEq] at h)
    | (obtain ⟨_, h⟩ := h)
  all_goals rfl

theorem if_stmt_state (tvs : List TVal) (st : TState) (v : TVal) (st' : TState)
    (h : CTransformer.if_stmt tvs st = some (v, st')) : st' = st := by
  unfold CTransformer.if_stmt at h
  repeat' first
    | split at h
    | (simp only [Option.some.injEq, Prod.mk.injEq] at h)
    | (obtain ⟨_, h⟩ := h)
  all_goals rfl

theorem for_stmt_state (tvs : List TVal) (st : TState) (v : TVal) (st' : TState)
    (h : CTransformer.for_stmt tvs st = some (v, st')) : st' = st := by
  unfold CTransformer.for_stmt at h
  repeat' first
    | split at h
    | (simp only [Option.bind_eq_bind, Option.bind_eq_some, Option.map_eq_some',
        Option.some.injEq, Prod.mk.injEq] at h)
    | (obtain ⟨_, _, h⟩ := h)
    | (obtain ⟨_, h⟩ := h)
  all_goals rfl

theorem func_def_scopes (tvs : List TVal) (st : TState) (v : TVal) (st' : TState)
    (h : CTransformer.func_def tvs st = some (v, st')) : st'.scopes = st.scopes := by
  unfold CTransformer.func_def at h
  repeat' first
    | split at h
    | (simp only [Option.bind_eq_bind, Option.bind_eq_some, Option.map_eq_some',
        Option.some.injEq, Prod.mk.injEq] at h)
    | (obtain ⟨_, _, h⟩ := h)
    | (obtain ⟨_, h⟩ := h)
  all_goals rfl

theorem class_def_state (tvs : List TVal) (st : TState) (v : TVal) (st' : TState)
    (h : CTransformer.class_def tvs st = some (v, st')) : st' = st := by
  unfold CTransformer.class_def at h
  repeat' first
    | split at h
    | (simp only [Option.bind_eq_bind, Option.bind_eq_some, Option.map_eq_some',
        Option.some.injEq, Prod.mk.injEq] at h)
    | (obtain ⟨_, _, h⟩ := h)
    | (obtain ⟨_, h⟩ := h)
  all_goals rfl

theorem program_state (tvs : List TVal) (st : TState) (v : TVal) (st' : TState)
    (h : CTransformer.program tvs st = some (v, st')) : st' = st := by
  unfold CTransformer.program at h
  simp only [Option.some.injEq, Prod.mk.injEq] at h
  exact h.2.symm

theorem start_state (tvs : List TVal) (st : TState) (v : TVal) (st' : TState)
    (h : CTransformer.start tvs st = some (v, st')) : st' = st := by
  unfold CTransformer.start at h
  repeat' first
    | split at h
    | (simp only [Option.some.injEq, Prod.mk.injEq] at h)
    | (obtain ⟨_, h⟩ := h)
  all_goals rfl

/-- A transformed child list shorter than three (the shape of every real
`assignment` node, whose children are the two transformed operands) takes
the handler's fall-through branch: nothing is emitted and nothing is
bound. -/
theorem assignment_short (st : TState) (tvs : List TVal) (h : tvs.length < 3) :
    CTransformer.assignment tvs st = some (.str "", st) := by
  match tvs with
  | [] => rfl
  | [_] => rfl
  | [_, _] => rfl
  | _ :: _ :: _ :: _ => simp only [List.length_cons] at h; omega

/-- Every handler other than `assignment` leaves the scope stack unchanged,
and `assignment` does so as well on a child list shorter than three (the
shape of every real assignment node). -/
theorem applyH_scopes (tag : String) (tvs : List TVal) (st : TState) (v : TVal)
    (st' : TState) (hA : tag = "assignment" → tvs.length < 3)
    (h : applyH tag tvs st = some (v, st')) : st'.scopes = st.scopes := by
  unfold applyH at h
  by_cases hc1 : tag = "directive"
  · rw [if_pos hc1] at h
    exact directive_scopes tvs st v st' h
  rw [if_neg hc1] at h
  by_cases hc2 : tag = "import_stmt"
  · rw [if_pos hc2] at h
    exact congrArg TState.scopes (import_stmt_state tvs st v st' h)
  rw [if_neg hc2] at h
  by_cases hc3 : tag = "params"
  · rw [if_pos hc3] at h
    exact congrArg TState.scopes (params_state tvs st v st' h)
  rw [if_neg hc3] at h
  by_cases hc4 : tag = "args"
  · rw [if_pos hc4] at h
    exact congrArg TState.scopes (args_state tvs st v st' h)
  rw [if_neg hc4] at h
  by_cases hc5 : tag = "var_access"
  · rw [if_pos hc5] at h
    exact congrArg TState.scopes (var_access_state tvs st v st' h)
  rw [if_neg hc5] at h
  by_cases hc6 : tag = "dot_access"
  · rw [if_pos hc6] at h
    exact congrArg TState.scopes (dot_access_state tvs st v st' h)
  rw [if_neg hc6] at h
  by_cases hc7 : tag = "call"
  · rw [if_pos hc7] at h
    exact congrArg TState.scopes (call_state tvs st v st' h)
  rw [if_neg hc7] at h
  by_cases hc8 : tag = "func_call"
  · rw [if_pos hc8] at h
    exact congrArg TState.scopes (func_call_state tvs st v st' h)
  rw [if_neg hc8] at h
  by_cases hc9 : tag = "new_expr"
  · rw [if_pos hc9] at h
    exact congrArg TState.scopes (new_expr_state tvs st v st' h)
  rw [if_neg hc9] at h
  by_cases hc10 : tag = "string_literal"
  · rw [if_pos hc10] at h
    exact congrArg TState.scopes (string_literal_state tvs st v st' h)
  rw [if_neg hc10] at h
  by_cases hc11 : tag = "int_literal"
  · rw [if_pos hc11] at h
    exact congrArg TState.scopes (int_literal_state tvs st v st' h)
  rw [if_neg hc11] at h
  by_cases hc12 : tag = "null_literal"
  · rw [if_pos hc12] at h
    exact congrArg TState.scopes (null_literal_state tvs st v st' h)
  rw [if_neg hc12] at h
  by_cases hc13 : tag = "array_literal"
  · rw [if_pos hc13] at h
    exact congrArg TState.scopes (array_literal_state tvs st v st' h)
  rw [if_neg hc13] at h
  by_cases hc14 : tag = "paren_expr"
  · rw [if_pos hc14] at h
    exact congrArg TState.scopes (paren_expr_state tvs st v st' h)
  rw [if_neg hc14] at h
  by_cases hc15 : tag = "add"
  · rw [if_pos hc15] at h
    exact congrArg TState.scopes (add_state tvs st v st' h)
  rw [if_neg hc15] at h
  by_cases hc16 : tag = "compare"
  · rw [if_pos hc16] at h
    exact congrArg TState.scopes (compare_state tvs st v st' h)
  rw [if_neg hc16] at h
  by_cases hc17 : tag = "logic"
  · rw [if_pos hc17] at h
    exact congrArg TState.scopes (logic_state tvs st v st' h)
  rw [if_neg hc17] at h
  by_cases hc18 : tag = "not_expr"
  · rw [if_pos hc18] at h
    exact congrArg TState.scopes (not_expr_state tvs st v st' h)
  rw [if_neg hc18] at h
  by_cases hc19 : tag = "array_access"
  · rw [if_pos hc19] at h
    exact congrArg TState.scopes (array_access_state tvs st v st' h)
  rw [if_neg hc19] at h
  by_cases hc20 : tag = "assignment"
  · rw [if_pos hc20] at h
    rw [assignment_short st tvs (hA hc20)] at h
    simp only [Option.some.injEq, Prod.mk.injEq] at h
    rw [← h.2]
  rw [if_neg hc20] at h
  by_cases hc21 : tag = "log_stmt"
  · rw [if_pos hc21] at h
    exact congrArg TState.scopes (log_stmt_state tvs st v st' h)
  rw [if_neg hc21] at h
  by_cases hc22 : tag = "return_stmt"
  · rw [if_pos hc22] at h
    exact congrArg TState.scopes (return_stmt_state tvs st v st' h)
  rw [if_neg hc22] at h
  by_cases hc23 : tag = "func_call_stmt"
  · rw [if_pos hc23] at h
    exact congrArg TState.scopes (func_call_stmt_state tvs st v st' h)
  rw [if_neg hc23] at h
  by_cases hc24 : tag = "else_if_part"
  · rw [if_pos hc24] at h
    exact congrArg TState.scopes (else_if_part_state tvs st v st' h)
  rw [if_neg hc24] at h
  by_cases hc25 : tag = "else_block_part"
  · rw [if_pos hc25] at h
    exact congrArg TState.scopes (else_block_part_state tvs st v st' h)
  rw [if_neg hc25] at h
  by_cases hc26 : tag = "if_stmt"
  · rw [if_pos hc26] at h
    exact congrArg TState.scopes (if_stmt_state tvs st v st' h)
  rw [if_neg hc26] at h
  by_cases hc27 : tag = "for_stmt"
  · rw [if_pos hc27] at h
    exact congrArg TState.scopes (for_stmt_state tvs st v st' h)
  rw [if_neg hc27] at h
  by_cases hc28 : tag = "func_def"
  · rw [if_pos hc28] at h
    exact func_def_scopes tvs st v st' h
  rw [if_neg hc28] at h
  by_cases hc29 : tag = "class_def"
  · rw [if_pos hc29] at h
    exact congrArg TState.scopes (class_def_state tvs st v st' h)
  rw [if_neg hc29] at h
  by_cases hc30 : tag = "program"
  · rw [if_pos hc30] at h
    exact congrArg TState.scopes (program_state tvs st v st' h)
  rw [if_neg hc30] at h
  by_cases hc31 : tag = "start"
  · rw [if_pos hc31] at h
    exact congrArg TState.scopes (start_state tvs st v st' h)
  rw [if_neg hc31] at h
  simp only [Option.some.injEq, Prod.mk.injEq] at h
  rw [← h.2]

/-- The transformed child list is as long as the original one. -/
theorem transformList_length (ks : List PNode) :
    ∀ (st : TState) (vs : List TVal) (st' : TState),
      transformList st ks = some (vs, st') → vs.length = ks.length := by
  induction ks with
  | nil =>
    intro st vs st' h
    rw [transformList_nil] at h
    simp only [Option.some.injEq, Prod.mk.injEq] at h
    obtain ⟨rfl, -⟩ := h
    rfl
  | cons k ks ih =>
    intro st vs st' h
    rw [transformList_cons] at h
    rcases Option.bind_eq_some.mp h with ⟨r1, h1, h⟩
    rcases Option.bind_eq_some.mp h with ⟨r2, h2, h⟩
    simp only [Option.some.injEq, Prod.mk.injEq] at h
    obtain ⟨hv, -⟩ := h
    rw [← hv]
    simp [ih r1.2 r2.1 r2.2 h2]

/-- Scope preservation for a child list, given it for each child. -/
theorem transformList_scopes (ks : List PNode) :
    ∀ (st : TState) (vs : List TVal) (st' : TState),
      (∀ k ∈ ks, ∀ (st1 : TState) (v : TVal) (st2 : TState),
        transform st1 k = some (v, st2) → st2.scopes = st1.scopes) →
      transformList st ks = some (vs, st') → st'.scopes = st.scopes := by
  induction ks with
  | nil =>
    intro st vs st' _ h
    rw [transformList_nil] at h
    simp only [Option.some.injEq, Prod.mk.injEq] at h
    obtain ⟨-, rfl⟩ := h
    rfl
  | cons k ks ih =>
    intro st vs st' hk h
    rw [transformList_cons] at h
    rcases Option.bind_eq_some.mp h with ⟨r1, h1, h⟩
    rcases Option.bind_eq_some.mp h with ⟨r2, h2, h⟩
    simp only [Option.some.injEq, Prod.mk.injEq] at h
    obtain ⟨-, rfl⟩ := h
    rw [ih r1.2 r2.1 r2.2 (fun x hx => hk x (List.mem_cons_of_mem k hx)) h2]
    exact hk k (List.mem_cons_self k ks) st r1.1 r1.2 h1

/-- Trees whose `assignment` nodes all have at most two children.  lark's
default token filtering yields `assignment` nodes with exactly the two
transformed operand children (`assignment: expr "=" expr` with the `"="`
filtered out), so every tree the parser produces satisfies this. -/
inductive RealAsgn : PNode → Prop where
  | tok (ty v : String) : RealAsgn (.tok ty v)
  | tree (tag : String) (kids : List PNode) (hlen : tag = "assignment" → kids.length < 3)
      (hk : ∀ k ∈ kids, RealAsgn k) : RealAsgn (.tree tag kids)

/-- On any tree whose assignment nodes have the real two-child shape, a
completing transformation leaves the scope stack exactly as it was: the
handlers bind nothing and `func_def`'s push/pop pair is balanced. -/
theorem transform_scopes {t : PNode} (ht : RealAsgn t) :
    ∀ (st : TState) (v : TVal) (st' : TState),
      transform st t = some (v, st') → st'.scopes = st.scopes := by
  induction ht with
  | tok ty v =>
    intro st v st' h
    rw [transform_tok] at h
    simp only [Option.some.injEq, Prod.mk.injEq] at h
    obtain ⟨-, rfl⟩ := h
    rfl
  | tree tag kids hlen hk ih =>
    intro st v st' h
    rw [transform_tree] at h
    rcases Option.bind_eq_some.mp h with ⟨r, hr, h⟩
    have hlist : r.2.scopes = st.scopes := transformList_scopes kids st r.1 r.2 ih hr
    have hlen1 : tag = "assignment" → r.1.length < 3 := by
      intro he
      rw [transformList_length kids st r.1 r.2 hr]
      exact hlen he
    rw [applyH_scopes tag r.1 r.2 v st' hlen1 h, hlist]

theorem transform_tree_none {st : TState} {tag : String} {kids : List PNode}
    (h : transformList st kids = none) : transform st (.tree tag kids) = none := by
  rw [transform_tree, h]
  rfl

theorem transformList_head_none {st : TState} {e : PNode} {ks : List PNode}
    (h : transform st e = none) : transformList st (e :: ks) = none := by
  rw [transformList_cons, h]
  rfl

theorem transformList_cons_eval_none {st st1 : TState} {e : PNode} {v : TVal}
    {ks : List PNode} (h1 : transform st e = some (v, st1))
    (h2 : transformList st1 ks = none) : transformList st (e :: ks) = none := by
  rw [transformList_cons, h1]
  simp only [Option.bind_eq_bind, Option.some_bind]
  rw [h2]
  rfl

/-- The `range(1, len, 2)` walk on a token-free child tail: the elements at
the even offsets (the first components) are skipped unread, the elements at
the odd offsets are the ones whose types enter the fold. -/
theorem addWalk_pairs (acc : String) (ops : List (PNode × PNode × String))
    (H : ∀ p ∈ ops, Collector.infer_type p.2.1 = some p.2.2) :
    Collector.addWalk acc (ops.flatMap (fun p => [p.1, p.2.1])) =
      some (match ops with
        | [] => acc
        | _ => if acc = "char*" ∨ ops.any (fun p => p.2.2 = "char*") then "char*" else "int") := by
  induction ops generalizing acc with
  | nil => rfl
  | cons p rest ih =>
    simp only [List.flatMap_cons, List.cons_append, List.nil_append]
    rw [show Collector.addWalk acc (p.1 :: p.2.1 ::
        rest.flatMap (fun p => [p.1, p.2.1])) = (Collector.infer_type p.2.1).bind
        (fun rt => Collector.addWalk (if acc = "char*" ∨ rt = "char*" then "char*" else "int")
          (rest.flatMap (fun p => [p.1, p.2.1]))) from by
      simp [Collector.addWalk]]
    rw [H p (by simp), Option.some_bind, ih _ (fun q hq => H q (by simp [hq]))]
    cases rest with
    | nil => simp
    | cons q qs =>
      by_cases h1 : acc = "char*" ∨ p.2.2 = "char*"
      · have : (if acc = "char*" ∨ p.2.2 = "char*" then "char*" else "int") = "char*" :=
          if_pos h1
        rw [this]
        simp only [List.any_cons]
        rcases h1 with h1 | h1 <;> simp [h1]
      · push_neg at h1
        obtain ⟨ha, hb⟩ := h1
        have : (if acc = "char*" ∨ p.2.2 = "char*" then "char*" else "int") = "int" :=
          if_neg (by tauto)
        rw [this]
        simp only [List.any_cons]
        by_cases hB : (decide (q.2.2 = "char*") || qs.any fun r => decide (r.2.2 = "char*")) = true
        · rw [if_pos (Or.inr hB), if_pos (Or.inr (by simp [hB]))]
        · rw [if_neg (by simp [hB]), if_neg (by simp [ha, hb, hB])]

/-- Real parse tree of `class C [ func init() [ self.name = "x"
self.count = 0 ] ]`: lark filters the `class`/`[`/`]`/`func`/`(`/`)`/
`=`/`.` literals, so `class_def` holds the name token and the `func_def`
sub-tree, each `assignment` holds its two operand sub-trees, and each
`dot_access` holds the accessed value and the field token. -/
def exampleClassReal : PNode :=
  .tree "class_def" [.tok "ID" "C",
    .tree "func_def" [.tok "ID" "init",
      .tree "assignment" [
        .tree "dot_access" [.tree "var_access" [.tok "ID" "self"], .tok "ID" "name"],
        .tree "string_literal" [.tok "STRING" "\"x\""]],
      .tree "assignment" [
        .tree "dot_access" [.tree "var_access" [.tok "ID" "self"], .tok "ID" "count"],
        .tree "int_literal" [.tok "INT" "0"]]]]

/-- Collector run on the real class tree: `class_def` reads `children[1]`,
which is the `func_def` sub-tree rather than the name, and every
real (two-child) assignment falls through the `len < 3` guard, so no
field is ever recorded. -/
theorem exampleClassReal_visit :
    Collector.visit initCState exampleClassReal =
      some ⟨none, [("Tree(func_def)", [])], ["Tree(func_def)"]⟩ := by
  simp [exampleClassReal, Collector.visit, Collector.visitChildren, Collector.assignment,
    get_value, pyReprN, initCState, insertNew, lookupA]

/-- Real parse tree of `func f() [ y = (x) ]` wrapped in a program (no
literal tokens; `paren_expr` holds only the inner expression). -/
def exampleProgParen : PNode :=
  .tree "start" [.tree "program" [
    .tree "func_def" [.tok "ID" "f",
      .tree "assignment" [.tree "var_access" [.tok "ID" "y"],
        .tree "paren_expr" [.tree "var_access" [.tok "ID" "x"]]]]]]

/-- Emission aborts on the paren program: `paren_expr` reads `children[1]`
of its single-child list. -/
theorem exampleProgParen_none :
    transform (initTState [] []) exampleProgParen = none := by
  have hx : transform (initTState [] []) (.tree "var_access" [.tok "ID" "x"]) =
      some (.pair "x" "unknown", initTState [] []) := by
    rw [transform_tree,
      transformList_cons_eval (transform_tok _ "ID" "x") (transformList_nil _)]
    simp only [Option.bind_eq_bind, Option.some_bind, applyH_var_access]
    rfl
  have hy : transform (initTState [] []) (.tree "var_access" [.tok "ID" "y"]) =
      some (.pair "y" "unknown", initTState [] []) := by
    rw [transform_tree,
      transformList_cons_eval (transform_tok _ "ID" "y") (transformList_nil _)]
    simp only [Option.bind_eq_bind, Option.some_bind, applyH_var_access]
    rfl
  have hpar : transform (initTState [] [])
      (.tree "paren_expr" [.tree "var_access" [.tok "ID" "x"]]) = none := by
    rw [transform_tree, transformList_cons_eval hx (transformList_nil _)]
    simp only [Option.bind_eq_bind, Option.some_bind, applyH_paren_expr]
    rfl
  have hasgn : transform (initTState [] [])
      (.tree "assignment" [.tree "var_access" [.tok "ID" "y"],
        .tree "paren_expr" [.tree "var_access" [.tok "ID" "x"]]]) = none :=
    transform_tree_none (transformList_cons_eval_none hy (transformList_head_none hpar))
  have hfd : transform (initTState [] [])
      (.tree "func_def" [.tok "ID" "f",
        .tree "assignment" [.tree "var_access" [.tok "ID" "y"],
          .tree "paren_expr" [.tree "var_access" [.tok "ID" "x"]]]]) = none :=
    transform_tree_none (transformList_cons_eval_none (transform_tok _ "ID" "f")
      (transformList_head_none hasgn))
  unfold exampleProgParen
  exact transform_tree_none (transformList_head_none
    (transform_tree_none (transformList_head_none hfd)))

/-- The collector accepts the paren program (no class, every assignment
two-childed), so the full compile fails only in the emission pass. -/
theorem exampleProgParen_compile : compileTree exampleProgParen = none := by
  have hc : Collector.visit initCState exampleProgParen = some initCState := by
    simp [exampleProgParen, Collector.visit, Collector.visitChildren, Collector.assignment]
  unfold compileTree
  rw [hc]
  simp only [Option.bind_eq_bind, Option.some_bind]
  rw [show initCState.class_fields = [] from rfl, show initCState.class_names = [] from rfl,
    exampleProgParen_none]
  rfl

/-- Real parse tree of `func main(args) [ return 0 ]`: children are the
name token, the `params` sub-tree and the statement sub-tree only. -/
def exampleMainReal : PNode :=
  .tree "func_def" [.tok "ID" "main", .tree "params" [.tok "ID" "args"],
    .tree "return_stmt" [.tree "int_literal" [.tok "INT" "0"]]]

/-- Emission of the real `func main(args) [ return 0 ]`: three transformed
children, so `func_def`'s `len < 5` guard emits the empty string and the
`main` branch that sets the wrapper flag is never reached. -/
theorem exampleMainReal_eval :
    transform (initTState [] []) exampleMainReal = some (.str "", initTState [] []) := by
  have hp : transform (initTState [] []) (.tree "params" [.tok "ID" "args"]) =
      some (.strs ["args"], initTState [] []) := by
    rw [transform_tree,
      transformList_cons_eval (transform_tok _ "ID" "args") (transformList_nil _)]
    simp only [Option.bind_eq_bind, Option.some_bind, applyH_params]
    rfl
  have hi : transform (initTState [] []) (.tree "int_literal" [.tok "INT" "0"]) =
      some (.pair "0" "int", initTState [] []) := by
    rw [transform_tree,
      transformList_cons_eval (transform_tok _ "INT" "0") (transformList_nil _)]
    simp only [Option.bind_eq_bind, Option.some_bind, applyH_int_literal]
    rfl
  have hr : transform (initTState [] [])
      (.tree "return_stmt" [.tree "int_literal" [.tok "INT" "0"]]) =
      some (.str "return;\n", initTState [] []) := by
    rw [transform_tree, transformList_cons_eval hi (transformList_nil _)]
    simp only [Option.bind_eq_bind, Option.some_bind, applyH_return_stmt]
    rfl
  unfold exampleMainReal
  rw [transform_tree,
    transformList_cons_eval (transform_tok _ "ID" "main")
      (transformList_cons_eval hp
        (transformList_cons_eval hr (transformList_nil _)))]
  simp only [Option.bind_eq_bind, Option.some_bind, applyH_func_def]
  rfl

/-- Real parse tree of the statement `x = 1`: two operand children. -/
def exampleRealStmt : PNode :=
  .tree "assignment" [.tree "var_access" [.tok "ID" "x"],
    .tree "int_literal" [.tok "INT" "1"]]

/-- The real `x = 1` tree has only well-shaped assignment nodes. -/
theorem exampleRealStmt_real : RealAsgn exampleRealStmt := by
  refine RealAsgn.tree _ _ (fun _ => by decide) ?_
  intro k hk
  simp only [List.mem_cons, List.not_mem_nil, or_false] at hk
  rcases hk with rfl | rfl
  · refine RealAsgn.tree _ _ (fun _ => by decide) ?_
    intro k hk
    simp only [List.mem_singleton] at hk
    subst hk
    exact RealAsgn.tok _ _
  · refine RealAsgn.tree _ _ (fun _ => by decide) ?_
    intro k hk
    simp only [List.mem_singleton] at hk
    subst hk
    exact RealAsgn.tok _ _

/-- Emission of the real `x = 1`: the two-child list takes `assignment`'s
fall-through branch, emitting nothing and binding nothing. -/
theorem exampleRealStmt_eval :
    transform (initTState [] []) exampleRealStmt = some (.str "", initTState [] []) := by
  have hx : transform (initTState [] []) (.tree "var_access" [.tok "ID" "x"]) =
      some (.pair "x" "unknown", initTState [] []) := by
    rw [transform_tree,
      transformList_cons_eval (transform_tok _ "ID" "x") (transformList_nil _)]
    simp only [Option.bind_eq_bind, Option.some_bind, applyH_var_access]
    rfl
  have h1 : transform (initTState [] []) (.tree "int_literal" [.tok "INT" "1"]) =
      some (.pair "1" "int", initTState [] []) := by
    rw [transform_tree,
      transformList_cons_eval (transform_tok _ "INT" "1") (transformList_nil _)]
    simp only [Option.bind_eq_bind, Option.some_bind, applyH_int_literal]
    rfl
  unfold exampleRealStmt
  rw [transform_tree,
    transformList_cons_eval hx (transformList_cons_eval h1 (transformList_nil _))]
  simp only [Option.bind_eq_bind, Option.some_bind, applyH_assignment]
  rfl

/-- Real parse tree of the empty program. -/
def exampleProgEmpty : PNode := .tree "start" [.tree "program" []]

/-- Emission of the empty program: the fixed prelude alone. -/
theorem exampleProgEmpty_eval :
    transform (initTState [] []) exampleProgEmpty =
      some (.str ((baseHeader ++ "") ++ "" ++ ("" ++ "")), initTState [] []) := by
  have hp : transform (initTState [] []) (.tree "program" []) =
      some (.str ((baseHeader ++ "") ++ "" ++ ("" ++ "")), initTState [] []) := by
    rw [transform_tree, transformList_nil]
    simp only [Option.bind_eq_bind, Option.some_bind, applyH_program]
    rfl
  unfold exampleProgEmpty
  rw [transform_tree, transformList_cons_eval hp (transformList_nil _)]
  simp only [Option.bind_eq_bind, Option.some_bind, applyH_start]
  rfl

/-- C1 counterexample: on the real parse of `class C [ func init() [
self.name = "x" self.count = 0 ] ]` the collector records no field at all —
the class table holds a single entry keyed by the rendering of
`children[1]` (the `func_def` sub-tree, not the name) with an empty field
map, and no entry for `C` exists. -/
theorem claim_C1_counterexample :
    (∃ k, Collector.visit initCState exampleClassReal =
        some ⟨none, [(k, [])], [k]⟩ ∧ k ≠ "C") ∧
    lookupA ([] : List (String × String)) "name" = none ∧
    lookupA ([] : List (String × String)) "count" = none :=
  ⟨⟨"Tree(func_def)", exampleClassReal_visit, by decide⟩, by decide, by decide⟩

/-- C1 (amended): the collector's assignment hook returns the state
unchanged on every real assignment node — the parser yields two children
(`expr "=" expr` with the `=` filtered out) and the hook's `len < 3` guard
fires; a dot-access left side with the real two children likewise fails its
guard; so the class example records nothing. -/
theorem claim_C1_amended :
    (∀ (st : CState) (kids : List PNode), kids.length < 3 →
      Collector.assignment st kids = some st) ∧
    (∀ (st : CState) (a b e r : PNode) (rest : List PNode),
      Collector.assignment st (.tree "dot_access" [a, b] :: e :: r :: rest) = some st) ∧
    (∃ k, Collector.visit initCState exampleClassReal =
        some ⟨none, [(k, [])], [k]⟩ ∧ k ≠ "C") := by
  refine ⟨?_, ?_, "Tree(func_def)", exampleClassReal_visit, by decide⟩
  · intro st kids h
    match kids with
    | [] => rfl
    | [_] => rfl
    | [_, _] => rfl
    | _ :: _ :: _ :: _ => simp only [List.length_cons] at h; omega
  · intro st a b e r rest
    rfl

/-- Witness for C1 (amended) at the empty child list. -/
theorem claim_C1_witness :
    Collector.assignment initCState [] = some initCState :=
  claim_C1_amended.1 initCState [] (by decide)

/-- C2 counterexample: the accepted program `func f() [ y = (x) ]` aborts
the emission pass — `paren_expr`'s real single-child list hits the
unguarded `children[1]` read — so the whole compile fails after parsing. -/
theorem claim_C2_counterexample :
    compileTree exampleProgParen = none ∧
    transform (initTState [] []) exampleProgParen = none :=
  ⟨exampleProgParen_compile, exampleProgParen_none⟩

/-- C2 (amended): the guarded handlers do fall back to the empty string on
short child lists (`assignment` under three, `log_stmt` under two,
`class_def` under four children), but the emission pass is not total on
accepted trees: `paren_expr` fails on its real one-child list and `compare`
fails on a real three-child list (two comparison operators), so a local
mis-shape can abort the whole compile and the parser is not the only
strict boundary. -/
theorem claim_C2_amended :
    (∀ (st : TState) (v : TVal), CTransformer.paren_expr [v] st = none) ∧
    (∀ (st : TState) (a ta b tb c tc : String),
      CTransformer.compare [.pair a ta, .pair b tb, .pair c tc] st = none) ∧
    (∀ (st : TState) (tvs : List TVal), tvs.length < 3 →
      CTransformer.assignment tvs st = some (.str "", st)) ∧
    (∀ (st : TState) (tvs : List TVal), tvs.length < 2 →
      CTransformer.log_stmt tvs st = some (.str "", st)) ∧
    (∀ (st : TState) (tvs : List TVal), tvs.length < 4 →
      CTransformer.class_def tvs st = some (.str "", st)) ∧
    transform (initTState [] []) exampleProgParen = none := by
  refine ⟨?_, ?_, ?_, ?_, ?_, exampleProgParen_none⟩
  · intro st v
    rfl
  · intro st a ta b tb c tc
    rfl
  · intro st tvs h
    exact assignment_short st tvs h
  · intro st tvs h
    simp [CTransformer.log_stmt, h]
  · intro st tvs h
    simp [CTransformer.class_def, h]

/-- Witness for C2 (amended) at a one-element log child list. -/
theorem claim_C2_witness :
    CTransformer.log_stmt [.str "x"] (initTState [] []) =
      some (.str "", initTState [] []) :=
  claim_C2_amended.2.2.2.1 (initTState [] []) [.str "x"] (by decide)

/-- C3 counterexample: the real `log "hi {name}"` node carries only the
string token (the `log` literal is filtered out), so the handler's
`len < 2` guard emits the empty string — no printf and no asprintf. -/
theorem claim_C3_counterexample :
    transform (initTState [] [])
      (.tree "log_stmt" [.tok "STRING" "\"hi \x7bname\x7d\""]) =
      some (.str "", initTState [] []) ∧
    containsSub "" "printf" = false ∧
    containsSub "" "asprintf" = false := by
  refine ⟨?_, by decide, by decide⟩
  rw [transform_tree,
    transformList_cons_eval (transform_tok _ "STRING" "\"hi \x7bname\x7d\"")
      (transformList_nil _)]
  simp only [Option.bind_eq_bind, Option.some_bind, applyH_log_stmt]
  rfl

/-- C3 (amended): every real (single-child) log statement emits the empty
string; the interpolation helper itself is as described — `"hi {name}"`
lowers to one asprintf with format `"hi %s"` and argument `name`, and a
literal with no brace is re-quoted verbatim — but no log statement ever
reaches it. -/
theorem claim_C3_amended :
    (∀ (st : TState) (ty s : String),
      CTransformer.log_stmt [.tok ty s] st = some (.str "", st)) ∧
    process_interpolation "\"hi \x7bname\x7d\"" =
      "(char*)(\x7b char *str = NULL; asprintf(&str, \"hi %s\", name); str; \x7d)" ∧
    countSub ("printf(\"%s\\n\", " ++
      "(char*)(\x7b char *str = NULL; asprintf(&str, \"hi %s\", name); str; \x7d)" ++
      ");\n") "asprintf" = 1 ∧
    (∀ s : String, strHasChar (stripQuotes s) '\x7b' = false →
      process_interpolation s = "\"" ++ stripQuotes s ++ "\"") := by
  refine ⟨?_, ?_, ?_, ?_⟩
  · intro st ty s
    rfl
  · have hdata : (stripQuotes "\"hi \x7bname\x7d\"").data =
        ['h', 'i', ' ', '\x7b', 'n', 'a', 'm', 'e', '\x7d'] := by decide
    simp +decide [process_interpolation, hdata, interpLoop, interpVar, strTrim, isWsC,
      strHasChar]
  · decide
  · intro s h
    simp [process_interpolation, h]

/-- Witness for C3's no-interpolation clause at `"hello"`. -/
theorem claim_C3_witness :
    strHasChar (stripQuotes "\"hello\"") '\x7b' = false ∧
    process_interpolation "\"hello\"" = "\"" ++ stripQuotes "\"hello\"" ++ "\"" :=
  ⟨by decide, claim_C3_amended.2.2.2 "\"hello\"" (by decide)⟩

/-- C4 counterexample: the real `a == b` node holds only the two operand
tuples (the `==` is filtered out), the operator walk never runs, and the
handler returns the left operand unchanged — no strcmp, no `(a == b)`,
type `char*` rather than `bool`. -/
theorem claim_C4_counterexample :
    CTransformer.compare [.pair "a" "char*", .pair "b" "char*"] (initTState [] []) =
      some (.pair "a" "char*", initTState [] []) ∧
    containsSub "a" "strcmp" = false ∧
    ("char*" : String) ≠ "bool" :=
  ⟨rfl, by decide, by decide⟩

/-- C4 (amended): a comparison with one operator returns its left operand's
`(code, type)` pair unchanged, a lone operand passes through, and a
comparison with two operators fails (the walk reads `.children` off the
operand tuple at index 1). -/
theorem claim_C4_amended :
    (∀ (st : TState) (x y : TVal), CTransformer.compare [x, y] st = some (x, st)) ∧
    (∀ (st : TState) (x : TVal), CTransformer.compare [x] st = some (x, st)) ∧
    (∀ (st : TState) (a ta b tb c tc : String),
      CTransformer.compare [.pair a ta, .pair b tb, .pair c tc] st = none) := by
  refine ⟨?_, ?_, ?_⟩
  · intro st x y
    rfl
  · intro st x
    rfl
  · intro st a ta b tb c tc
    rfl

/-- C5 counterexample: the real `x = 1` child list (two transformed
operands, the `=` filtered out) takes the fall-through branch: the emitted
fragment is empty, not `x = 1;`, and the scope stack is untouched. -/
theorem claim_C5_counterexample :
    CTransformer.assignment [.pair "x" "unknown", .pair "1" "int"] (initTState [] []) =
      some (.str "", initTState [] []) ∧
    (initTState [] []).scopes = [[]] ∧
    containsSub "" "x = 1" = false :=
  ⟨rfl, rfl, by decide⟩

/-- C5 (amended): on every real assignment node — two transformed
children — the emitter returns the empty string and the unchanged state:
no `lhs = rhs;` fragment is produced and no binding is entered into any
scope frame. -/
theorem claim_C5_amended :
    ∀ (st : TState) (l r : TVal),
      CTransformer.assignment [l, r] st = some (.str "", st) := by
  intro st l r
  rfl

/-- C6 counterexample: the real parse of `func main(args) [ return 0 ]`
has three children, `func_def`'s `len < 5` guard emits the empty string,
the wrapper flag stays `false`, and nothing containing `hs_main` is
produced. -/
theorem claim_C6_counterexample :
    transform (initTState [] []) exampleMainReal = some (.str "", initTState [] []) ∧
    (initTState [] []).has_main = false ∧
    containsSub "" "hs_main" = false :=
  ⟨exampleMainReal_eval, rfl, by decide⟩

/-- C6 (amended): every func_def with fewer than five children — which
includes the real `func main(args) [ return 0 ]`, whose children are the
name token, the params list and one statement — emits the empty string
with the state unchanged, so the `main`-renaming branch never runs on it
and the wrapper flag is never set; and a program emitted with the flag
still `false` consists of the prelude, imports and definitions with no
trailing wrapper appended. -/
theorem claim_C6_amended :
    (∀ (st : TState) (tvs : List TVal), tvs.length < 5 →
      CTransformer.func_def tvs st = some (.str "", st)) ∧
    transform (initTState [] []) exampleMainReal = some (.str "", initTState [] []) ∧
    (∀ (tvs : List TVal) (mode : String) (scopes : List Frame) (cc : Option String)
        (cf : List (String × List (String × String))) (cn : List String),
      CTransformer.program tvs ⟨mode, scopes, cc, cf, cn, false⟩ =
        some (.str ((baseHeader ++ (if mode = "manual" then deferMacro else "")) ++
          String.join ((tvs.filterMap strOfTVal).filter (fun s => strStarts s "#include")) ++
          (String.join ((tvs.filterMap strOfTVal).filter (fun s => ¬ strStarts s "#include")) ++
            "")),
          ⟨mode, scopes, cc, cf, cn, false⟩)) := by
  refine ⟨?_, exampleMainReal_eval, ?_⟩
  · intro st tvs h
    simp [CTransformer.func_def, h]
  · intro tvs mode scopes cc cf cn
    rfl

/-- Witness for C6 (amended) at the empty child list. -/
theorem claim_C6_witness :
    CTransformer.func_def [] (initTState [] []) = some (.str "", initTState [] []) :=
  claim_C6_amended.1 (initTState [] []) [] (by decide)

/-- C7 counterexample: on the real (token-free) chain `1 + "a" + 2` the
collector's `range(1, len, 2)` walk reads the children at indices 2, 4, …
— skipping the middle operand `"a"` — and infers `int`, not `char*`; and
on the real two-operand chain `1 + 2` it indexes one past the end and
fails. -/
theorem claim_C7_counterexample :
    Collector.infer_type (.tree "add" [.tree "int_literal" [.tok "INT" "1"],
      .tree "string_literal" [.tok "STRING" "\"a\""],
      .tree "int_literal" [.tok "INT" "2"]]) = some "int" ∧
    ("int" : String) ≠ "char*" ∧
    Collector.infer_type (.tree "add" [.tree "int_literal" [.tok "INT" "1"],
      .tree "int_literal" [.tok "INT" "2"]]) = none := by
  refine ⟨?_, by decide, ?_⟩
  · simp [Collector.infer_type, Collector.addWalk]
  · simp [Collector.infer_type, Collector.addWalk]

/-- C7 (amended): the walk over a real operand-only child tail visits only
the elements at odd tail offsets (children indices 2, 4, …): each pair
skips its first element unread and folds the second's type with the sticky
`char*` rule; a tail with a single element left over — any even operand
count, in particular every two-operand chain — fails; and `int + str +
int` infers `int` because only the operands at even indices are read. -/
theorem claim_C7_amended :
    (∀ (acc : String) (x : PNode), Collector.addWalk acc [x] = none) ∧
    (∀ (acc : String) (ops : List (PNode × PNode × String))
      (_H : ∀ p ∈ ops, Collector.infer_type p.2.1 = some p.2.2),
      Collector.addWalk acc (ops.flatMap (fun p => [p.1, p.2.1])) =
        some (match ops with
          | [] => acc
          | _ => if acc = "char*" ∨ ops.any (fun p => p.2.2 = "char*") then "char*"
            else "int")) ∧
    Collector.infer_type (.tree "add" [.tree "int_literal" [.tok "INT" "1"],
      .tree "string_literal" [.tok "STRING" "\"a\""],
      .tree "int_literal" [.tok "INT" "2"]]) = some "int" := by
  refine ⟨?_, addWalk_pairs, ?_⟩
  · intro acc x
    simp [Collector.addWalk]
  · simp [Collector.infer_type, Collector.addWalk]

/-- Witness for C7 (amended) on the tail of the `1 + "a" + 2` chain. -/
theorem claim_C7_witness :
    Collector.addWalk "int" [.tree "string_literal" [.tok "STRING" "\"a\""],
      .tree "int_literal" [.tok "INT" "2"]] = some "int" :=
  claim_C7_amended.2.1 "int"
    [(.tree "string_literal" [.tok "STRING" "\"a\""],
      .tree "int_literal" [.tok "INT" "2"], "int")]
    (by
      intro p hp
      simp only [List.mem_singleton] at hp
      subst hp
      simp [Collector.infer_type])
/-- A call node `n()` in the form the collector inspects. -/
def callOf (n : String) : PNode :=
  .tree "call" [.tree "var_access" [.tok "ID" n], .tok "PUNCT" "(", .tok "PUNCT" ")"]

/-- C8 counterexample: the collector's call-return table and the emitter's
`infer_call_type` are not identical — `write_file` maps to `unknown` in the
collector but to `char*` in the emitter. -/
theorem claim_C8_counterexample :
    Collector.infer_type (callOf "write_file") = some "unknown" ∧
    CTransformer.infer_call_type "write_file" = "char*" ∧
    ("unknown" : String) ≠ "char*" := by
  refine ⟨by simp [callOf, Collector.infer_type, get_value], by decide, by decide⟩

/-- C8 (amended): both tables agree on `read_file`, `get_current_version`,
`get_remote_version`, `replace`, `get_cwd` (`char*`) and on `curl_get`,
`json_parse`, `parse_hcl`, `list_dir`, and on names outside both tables
(`unknown`); but the collector maps `write_file`, `read_input` to `unknown`
(not `char*`), `file_exists` to `unknown` (not `bool`), `version_compare`
and `build` to `unknown` (not `int`), and `allocate` to `void*` where the
emitter's table says `unknown`. -/
theorem claim_C8_amended :
    ((Collector.infer_type (callOf "read_file") = some "char*" ∧
        CTransformer.infer_call_type "read_file" = "char*") ∧
     (Collector.infer_type (callOf "get_current_version") = some "char*" ∧
        CTransformer.infer_call_type "get_current_version" = "char*") ∧
     (Collector.infer_type (callOf "get_remote_version") = some "char*" ∧
        CTransformer.infer_call_type "get_remote_version" = "char*") ∧
     (Collector.infer_type (callOf "replace") = some "char*" ∧
        CTransformer.infer_call_type "replace" = "char*") ∧
     (Collector.infer_type (callOf "get_cwd") = some "char*" ∧
        CTransformer.infer_call_type "get_cwd" = "char*") ∧
     (Collector.infer_type (callOf "curl_get") = some "Response*" ∧
        CTransformer.infer_call_type "curl_get" = "Response*") ∧
     (Collector.infer_type (callOf "json_parse") = some "Json*" ∧
        CTransformer.infer_call_type "json_parse" = "Json*") ∧
     (Collector.infer_type (callOf "parse_hcl") = some "Hcl*" ∧
        CTransformer.infer_call_type "parse_hcl" = "Hcl*") ∧
     (Collector.infer_type (callOf "list_dir") = some "Array" ∧
        CTransformer.infer_call_type "list_dir" = "Array") ∧
     (Collector.infer_type (callOf "write_file") = some "unknown" ∧
        CTransformer.infer_call_type "write_file" = "char*") ∧
     (Collector.infer_type (callOf "read_input") = some "unknown" ∧
        CTransformer.infer_call_type "read_input" = "char*") ∧
     (Collector.infer_type (callOf "file_exists") = some "unknown" ∧
        CTransformer.infer_call_type "file_exists" = "bool") ∧
     (Collector.infer_type (callOf "version_compare") = some "unknown" ∧
        CTransformer.infer_call_type "version_compare" = "int") ∧
     (Collector.infer_type (callOf "build") = some "unknown" ∧
        CTransformer.infer_call_type "build" = "int") ∧
     (Collector.infer_type (callOf "allocate") = some "void*" ∧
        CTransformer.infer_call_type "allocate" = "unknown")) ∧
    (∀ n : String, n ∉ (["allocate", "read_file", "get_current_version",
        "get_remote_version", "replace", "get_cwd", "curl_get", "json_parse", "list_dir",
        "parse_hcl", "build", "run", "install", "remove", "version_compare", "write_file",
        "read_input", "file_exists"] : List String) →
      Collector.infer_type (callOf n) = some "unknown" ∧
      CTransformer.infer_call_type n = "unknown") := by
  constructor
  · refine ⟨?_, ?_, ?_, ?_, ?_, ?_, ?_, ?_, ?_, ?_, ?_, ?_, ?_, ?_, ?_⟩ <;>
      exact ⟨by simp [callOf, Collector.infer_type, get_value], by decide⟩
  · intro n hn
    simp only [List.mem_cons, List.not_mem_nil, or_false, not_or] at hn
    obtain ⟨h1, h2, h3, h4, h5, h6, h7, h8, h9, h10, h11, h12, h13, h14, h15, h16, h17, h18⟩ := hn
    constructor
    · simp [callOf, Collector.infer_type, get_value, h1, h2, h3, h4, h5, h6, h7, h8, h9, h10]
    · simp [CTransformer.infer_call_type, h2, h3, h4, h5, h6, h7, h8, h9, h10,
        h11, h12, h13, h14, h15, h16, h17, h18]

/-- Witness for C8's outside-the-table clause at the name `foo`. -/
theorem claim_C8_witness :
    ("foo" : String) ∉ (["allocate", "read_file", "get_current_version",
        "get_remote_version", "replace", "get_cwd", "curl_get", "json_parse", "list_dir",
        "parse_hcl", "build", "run", "install", "remove", "version_compare", "write_file",
        "read_input", "file_exists"] : List String) ∧
    Collector.infer_type (callOf "foo") = some "unknown" ∧
    CTransformer.infer_call_type "foo" = "unknown" := by
  have hm : ("foo" : String) ∉ (["allocate", "read_file", "get_current_version",
      "get_remote_version", "replace", "get_cwd", "curl_get", "json_parse", "list_dir",
      "parse_hcl", "build", "run", "install", "remove", "version_compare", "write_file",
      "read_input", "file_exists"] : List String) := by decide
  exact ⟨hm, (claim_C8_amended.2 "foo" hm).1, (claim_C8_amended.2 "foo" hm).2⟩

/-- C9: whenever emission of a `start` node over a `program` completes, its
value is a string that begins with the fixed runtime prelude; the program
handler emits exactly prelude, then the `#include`-prefixed lines, then all
remaining definition strings (then the wrapper when flagged); and the
prelude contains the six includes, the four struct typedefs and the three
array helpers verbatim. -/
theorem claim_C9 :
    (∀ (pk kids : List PNode) (st : TState) (v : TVal) (st' : TState),
      transform st (.tree "start" (.tree "program" pk :: kids)) = some (v, st') →
      ∃ out, v = .str out ∧ strStarts out baseHeader = true) ∧
    (∀ (tvs : List TVal) (st : TState),
      CTransformer.program tvs st = some (.str (
        (baseHeader ++ (if st.mode = "manual" then deferMacro else "")) ++
        String.join ((tvs.filterMap strOfTVal).filter (fun s => strStarts s "#include")) ++
        (String.join ((tvs.filterMap strOfTVal).filter (fun s => ¬ strStarts s "#include")) ++
          (if st.has_main then wrapperText else ""))), st)) ∧
    (containsSub baseHeader "#include <stdio.h>" = true ∧
     containsSub baseHeader "#include <stdlib.h>" = true ∧
     containsSub baseHeader "#include <string.h>" = true ∧
     containsSub baseHeader "#include <stdbool.h>" = true ∧
     containsSub baseHeader "#include <unistd.h>" = true ∧
     containsSub baseHeader "#include <curl/curl.h>" = true ∧
     containsSub baseHeader "typedef struct \x7b char** data; int len; \x7d Array;" = true ∧
     containsSub baseHeader "typedef struct \x7b int status; char* body; \x7d Response;" = true ∧
     containsSub baseHeader "typedef struct \x7b Array items; \x7d Json;" = true ∧
     containsSub baseHeader
       "typedef struct \x7b struct \x7b Array c; Array virus; \x7d dependencies; \x7d Hcl;" = true ∧
     containsSub baseHeader "bool array_contains(Array a, char* s)" = true ∧
     containsSub baseHeader "Array array_slice(Array a, int start)" = true ∧
     containsSub baseHeader "char* array_last(Array a)" = true) := by
  refine ⟨?_, program_eq, ?_⟩
  · intro pk kids st v st' h
    rw [transform_tree] at h
    rcases Option.bind_eq_some.mp h with ⟨r, hr, h⟩
    rw [transformList_cons] at hr
    rcases Option.bind_eq_some.mp hr with ⟨r1, h1, hr⟩
    rcases Option.bind_eq_some.mp hr with ⟨r2, h2, hr⟩
    simp only [Option.some.injEq] at hr
    rw [transform_tree] at h1
    rcases Option.bind_eq_some.mp h1 with ⟨q, hq, h1⟩
    rw [applyH_program, program_eq] at h1
    simp only [Option.some.injEq] at h1
    rw [← hr] at h
    rw [applyH_start] at h
    unfold CTransformer.start at h
    simp only [Option.some.injEq, Prod.mk.injEq] at h
    obtain ⟨hv, -⟩ := h
    refine ⟨(baseHeader ++ (if q.2.mode = "manual" then deferMacro else "")) ++
      String.join ((q.1.filterMap strOfTVal).filter (fun s => strStarts s "#include")) ++
      (String.join ((q.1.filterMap strOfTVal).filter (fun s => ¬ strStarts s "#include")) ++
        (if q.2.has_main then wrapperText else "")), ?_,
      strStarts_append3 baseHeader _ _ _⟩
    rw [← hv, ← h1]
  · refine ⟨?_, ?_, ?_, ?_, ?_, ?_, ?_, ?_, ?_, ?_, ?_, ?_, ?_⟩ <;> decide

/-- Witness for C9's prefix clause at the empty program. -/
theorem claim_C9_witness :
    ∃ out, TVal.str ((baseHeader ++ "") ++ "" ++ ("" ++ "")) = .str out ∧
      strStarts out baseHeader = true :=
  claim_C9.1 [] [] (initTState [] []) _ _ exampleProgEmpty_eval

/-- C10: on every tree whose assignment nodes have the real two-child
shape — which covers all parser output, since `assignment: expr "=" expr`
loses its `=` to token filtering — a completing emission ends with the
scope stack exactly `[[]]`: one frame, still empty.  Every frame `func_def`
pushes is popped before it returns, and the outermost frame never receives
a binding because the real assignment child list falls through the
`len < 3` guard before `scopes[-1]` is touched. -/
theorem claim_C10 :
    ∀ (t : PNode), RealAsgn t →
      ∀ (cf : List (String × List (String × String))) (cn : List String)
        (v : TVal) (st' : TState),
      transform (initTState cf cn) t = some (v, st') → st'.scopes = [[]] := by
  intro t ht cf cn v st' h
  rw [transform_scopes ht (initTState cf cn) v st' h]
  rfl

/-- Witness for C10 at the real `x = 1` statement. -/
theorem claim_C10_witness : (initTState [] []).scopes = [[]] :=
  claim_C10 exampleRealStmt exampleRealStmt_real [] [] _ _ exampleRealStmt_eval
